import Mathlib

/-!
Verification of the entity-to-instance synchronization core of the `graphics`
crate (src/src/graphics.rs, src/src/types.rs, src/src/gauss.rs).

Embedding conventions:
* `f32` values are embedded as exact rationals (`ℚ`); the literal `0.99` is
  embedded as `99/100`.  All claims under scrutiny depend on opacity only
  through the comparison `opacity < 0.99`, never on rounding behaviour.
* One byte of GPU-bound serialized data is `FByte := Option (ℚ × Fin 4)`:
  `some (x, k)` is the `k`-th byte of the 4-byte native encoding of the f32
  value `x`, and `none` is a literal zero pad byte.  This keeps byte offsets
  (`INSTANCE_SIZE = 120` bytes per instance record) exact while leaving the
  IEEE-754 bit packing of a single f32 abstract.
* GPU buffers are byte lists (`List FByte`); `Queue::write_buffer` is an
  in-place splice that never changes the length (wgpu rejects out-of-range
  writes; they do not grow the buffer).
* The fields `class`, `buf_i`, `buf_is_transparent` of `Entity`, the
  `gaussians` field of `Scene`, and the `From<&Entity> for Instance`
  conversion are used by src/src/graphics.rs but their declarations come
  from a revision of types.rs not included under src/; they are modelled
  from the spec where noted.
-/

namespace Graphics

/-- Three f32 components, as in lin_alg's `Vec3` (f32). -/
structure Vec3 where
  x : ℚ
  y : ℚ
  z : ℚ
deriving DecidableEq

/-- Quaternion with four f32 components, as in lin_alg's `Quaternion` (f32). -/
structure Quaternion where
  w : ℚ
  x : ℚ
  y : ℚ
  z : ℚ
deriving DecidableEq

/-- Mesh vertex, from src/src/types.rs `Vertex`. -/
structure Vertex where
  position : Vec3
  tex_coords : ℚ × ℚ
  normal : Vec3
  tangent : Vec3
  bitangent : Vec3
deriving DecidableEq

/-- Mesh, from src/src/types.rs `Mesh`. -/
structure Mesh where
  vertices : List Vertex
  indices : List Nat
  material : Nat
deriving DecidableEq

/-- Entity, from src/src/types.rs `Entity`.  The fields `cls` (Rust name:
`class`, a Lean keyword), `buf_i` and `buf_is_transparent` are used by
src/src/graphics.rs (`replace_instance_entries`, `setup_entities`) but
declared in a types.rs revision not under src/.  Modelled from the spec:
"class tag (`class`, grouping for bulk update)" and "two pieces of derived
bookkeeping state: `slot` (an optional index into its current bucket's
instance array) and `bucket` (which array it was last placed into)".
The field `scale_by_axis` is Rust's per-axis scale override field
(an `Option` overriding the uniform `scale` when present). -/
structure Entity where
  id : Nat
  cls : Nat
  mesh : Nat
  position : Vec3
  orientation : Quaternion
  scale : ℚ
  scale_by_axis : Option Vec3
  color : ℚ × ℚ × ℚ
  opacity : ℚ
  shinyness : ℚ
  buf_i : Option Nat
  buf_is_transparent : Bool
deriving DecidableEq

/-- Instance record, from src/src/types.rs `Instance`. -/
structure Instance where
  position : Vec3
  orientation : Quaternion
  scale : Vec3
  color : Vec3
  opacity : ℚ
  shinyness : ℚ
deriving DecidableEq

/-- Gaussian splat, from src/src/gauss.rs `Gaussian`. -/
structure Gaussian where
  center : Vec3
  amplitude : ℚ
  width : ℚ
  color : ℚ × ℚ × ℚ × ℚ
deriving DecidableEq

/-- GPU-layout gaussian record, from src/src/gauss.rs `GaussianInstance`. -/
structure GaussianInstance where
  center : Vec3
  amplitude : ℚ
  width : ℚ
  color : ℚ × ℚ × ℚ × ℚ
  pad : ℚ × ℚ × ℚ
deriving DecidableEq

/-- Size constants in bytes, from src/src/types.rs. -/
def F32_SIZE : Nat := 4

def VEC3_SIZE : Nat := 3 * F32_SIZE

def VEC4_SIZE : Nat := 4 * F32_SIZE

def MAT4_SIZE : Nat := 16 * F32_SIZE

def MAT3_SIZE : Nat := 9 * F32_SIZE

/-- `INSTANCE_SIZE = 120` bytes, from src/src/types.rs. -/
def INSTANCE_SIZE : Nat := MAT4_SIZE + MAT3_SIZE + VEC4_SIZE + F32_SIZE

/-- One byte of serialized GPU data: `some (x, k)` is byte `k` of the native
4-byte encoding of the f32 value `x`; `none` is a literal zero byte. -/
abbrev FByte := Option (ℚ × Fin 4)

/-- The four bytes of the native encoding of one f32 value (`to_ne_bytes`). -/
def f32Bytes (v : ℚ) : List FByte :=
  [some (v, 0), some (v, 1), some (v, 2), some (v, 3)]

/-- Rotation matrix entries of a quaternion (row-major names `r c`), the
standard unit-quaternion-to-matrix formula used by lin_alg's
`Quaternion::to_matrix3`.  Modelled from the spec: "a derived normal
transform" computed from the entity's orientation. -/
structure Mat3 where
  m00 : ℚ
  m01 : ℚ
  m02 : ℚ
  m10 : ℚ
  m11 : ℚ
  m12 : ℚ
  m20 : ℚ
  m21 : ℚ
  m22 : ℚ
deriving DecidableEq

/-- Quaternion to rotation matrix. -/
def Quaternion.to_matrix3 (q : Quaternion) : Mat3 where
  m00 := 1 - 2 * (q.y * q.y + q.z * q.z)
  m01 := 2 * (q.x * q.y - q.z * q.w)
  m02 := 2 * (q.x * q.z + q.y * q.w)
  m10 := 2 * (q.x * q.y + q.z * q.w)
  m11 := 1 - 2 * (q.x * q.x + q.z * q.z)
  m12 := 2 * (q.y * q.z - q.x * q.w)
  m20 := 2 * (q.x * q.z - q.y * q.w)
  m21 := 2 * (q.y * q.z + q.x * q.w)
  m22 := 1 - 2 * (q.x * q.x + q.y * q.y)

/-- The 16 f32 words (column-major) of the composed model matrix
`Mat4::new_translation(position) * orientation.to_matrix() *
Mat4::new_scaler_partial(scale)` from `Instance::to_bytes`
(src/src/types.rs): rotation columns scaled per axis, translation in the
last column. -/
def modelMatWords (inst : Instance) : List ℚ :=
  let r := inst.orientation.to_matrix3
  [r.m00 * inst.scale.x, r.m10 * inst.scale.x, r.m20 * inst.scale.x, 0,
   r.m01 * inst.scale.y, r.m11 * inst.scale.y, r.m21 * inst.scale.y, 0,
   r.m02 * inst.scale.z, r.m12 * inst.scale.z, r.m22 * inst.scale.z, 0,
   inst.position.x, inst.position.y, inst.position.z, 1]

/-- The 9 f32 words (column-major) of the normal matrix
`orientation.to_matrix3()` from `Instance::to_bytes`. -/
def normalMatWords (inst : Instance) : List ℚ :=
  let r := inst.orientation.to_matrix3
  [r.m00, r.m10, r.m20, r.m01, r.m11, r.m21, r.m02, r.m12, r.m22]

/-- Serialization of one instance record, from src/src/types.rs
`Instance::to_bytes`: model matrix (64 bytes), normal matrix (36 bytes),
color xyz + opacity (16 bytes), shinyness (4 bytes); 120 bytes total. -/
def Instance.to_bytes (inst : Instance) : List FByte :=
  ((modelMatWords inst ++ normalMatWords inst)
    ++ [inst.color.x, inst.color.y, inst.color.z, inst.opacity, inst.shinyness]).foldr
    (fun w acc => f32Bytes w ++ acc) []

/-- Conversion from gaussian splat to its GPU record, from src/src/gauss.rs
`Gaussian::to_instance`. -/
def Gaussian.to_instance (g : Gaussian) : GaussianInstance :=
  { center := g.center
    amplitude := g.amplitude
    width := g.width
    color := g.color
    pad := (0, 0, 0) }

/-- Serialization of one gaussian record, from src/src/gauss.rs
`GaussianInstance::to_bytes`: 9 f32 words (center, amplitude, width, color),
then 12 zero pad bytes that the source never writes; 48 bytes total. -/
def GaussianInstance.to_bytes (g : GaussianInstance) : List FByte :=
  ([g.center.x, g.center.y, g.center.z, g.amplitude, g.width,
    g.color.1, g.color.2.1, g.color.2.2.1, g.color.2.2.2].foldr
    (fun w acc => f32Bytes w ++ acc) [])
  ++ List.replicate 12 (none : FByte)

/-- Conversion from entity to instance record, used as `ent.into()` in
src/src/graphics.rs.  Modelled from the spec: "a flattened, GPU-layout
record computed from one Entity: a composed model transform (translation x
rotation x non-uniform scale), a derived normal transform, color+opacity,
shininess"; the per-axis scale overrides the uniform scale when present
("Scale by axis. If `Some`, overrides scale"). -/
def entityToInstance (e : Entity) : Instance :=
  { position := e.position
    orientation := e.orientation
    scale := e.scale_by_axis.getD ⟨e.scale, e.scale, e.scale⟩
    color := ⟨e.color.1, e.color.2.1, e.color.2.2⟩
    opacity := e.opacity
    shinyness := e.shinyness }

/-- Forget the derived bookkeeping fields of an entity (the fields written
by `setup_entities`), keeping the application-owned attributes. -/
def eraseBk (e : Entity) : Entity :=
  { e with buf_i := none, buf_is_transparent := false }

/-- The opacity threshold literal `0.99` of src/src/graphics.rs, embedded as
the exact rational 99/100 (in kernel-computable `mkRat` form). -/
def OPACITY_THRESHOLD : ℚ := mkRat 99 100

theorem OPACITY_THRESHOLD_eq : OPACITY_THRESHOLD = (99 : ℚ)/100 := by
  norm_num [OPACITY_THRESHOLD, mkRat]

/-- The bucket an entity belongs to right now, computed fresh from its live
opacity: the test `ent.opacity < 0.99` of src/src/graphics.rs. -/
def nowTransparent (e : Entity) : Bool :=
  decide (e.opacity < OPACITY_THRESHOLD)

/-- Scene, from src/src/types.rs `Scene`, restricted to the fields the
verified operations read (camera, lighting, input settings, background and
window metadata are out of scope per the spec and never read by
`setup_entities`, `replace_instance_entries` or the draw loop).  The
`gaussians` field is used by src/src/graphics.rs; its declaration is from a
types.rs revision not under src/, modelled from the spec: "Gaussian splats
are a structurally distinct, non-entity-backed instance kind". -/
structure Scene where
  meshes : List Mesh
  entities : List Entity
  gaussians : List Gaussian
deriving DecidableEq

/-- GraphicsState, from src/src/graphics.rs `GraphicsState`, restricted to
the instance buffers and draw-range tables the claims are about.  Buffers
hold their serialized byte contents. -/
structure GraphicsState where
  scene : Scene
  instance_buf : List FByte
  instance_buf_transparent : List FByte
  instance_buf_gauss : List FByte
  mesh_mappings : List (Int × Nat × Nat)
  mesh_mappings_transparent : List (Int × Nat × Nat)
deriving DecidableEq

/-- The four mutable counters of the `setup_entities` loops:
`i_opaque`, `i_transparent` (global slot counters) and
`instance_count_this_mesh`, `instance_count_this_mesh_transparent`
(per-mesh counts). -/
structure Counters where
  iOpaque : Nat
  iTransparent : Nat
  cntO : Nat
  cntT : Nat
deriving DecidableEq

/-- Result of one inner pass of `setup_entities` over the entity list for a
single mesh. -/
structure PassResult where
  entities : List Entity
  instances : List Instance
  instances_transparent : List Instance
  counters : Counters
deriving DecidableEq

/-- The inner loop of `GraphicsState::setup_entities`
(src/src/graphics.rs lines 536-555) for mesh index `i`: iterate entities in
registry order, take those with `entity.mesh == i`, classify by
`entity.opacity < 0.99`, push the derived instance on the matching bucket
list, and record the slot (`buf_i`) and bucket tag
(`buf_is_transparent`) on the entity. -/
def passMesh (i : Nat) (c : Counters) : List Entity → PassResult
  | [] => ⟨[], [], [], c⟩
  | e :: rest =>
    if e.mesh = i then
      if e.opacity < OPACITY_THRESHOLD then
        let e' := { e with buf_i := some c.iTransparent, buf_is_transparent := true }
        let r := passMesh i { c with iTransparent := c.iTransparent + 1, cntT := c.cntT + 1 } rest
        ⟨e' :: r.entities, r.instances, entityToInstance e :: r.instances_transparent, r.counters⟩
      else
        let e' := { e with buf_i := some c.iOpaque, buf_is_transparent := false }
        let r := passMesh i { c with iOpaque := c.iOpaque + 1, cntO := c.cntO + 1 } rest
        ⟨e' :: r.entities, entityToInstance e :: r.instances, r.instances_transparent, r.counters⟩
    else
      let r := passMesh i c rest
      ⟨e :: r.entities, r.instances, r.instances_transparent, r.counters⟩

/-- Result of the mesh loop of `setup_entities`. -/
structure BuildResult where
  entities : List Entity
  instances : List Instance
  instances_transparent : List Instance
  mesh_mappings : List (Int × Nat × Nat)
  mesh_mappings_transparent : List (Int × Nat × Nat)
deriving DecidableEq

/-- The outer mesh loop of `GraphicsState::setup_entities`
(src/src/graphics.rs lines 532-573): for each mesh run `passMesh`, then
append one draw-range entry `(vertex_start, instance_start, count)` per
bucket (even when the count is 0), and advance the running vertex and
instance offsets. -/
def buildMeshes : List Mesh → Nat → List Entity → Nat → Nat → Int → Nat → Nat → BuildResult
  | [], _, ents, _, _, _, _, _ => ⟨ents, [], [], [], []⟩
  | m :: rest, i, ents, iO, iT, vStart, instStart, instStartT =>
    let p := passMesh i ⟨iO, iT, 0, 0⟩ ents
    let r := buildMeshes rest (i + 1) p.entities p.counters.iOpaque p.counters.iTransparent
      (vStart + m.vertices.length) (instStart + p.counters.cntO) (instStartT + p.counters.cntT)
    ⟨r.entities, p.instances ++ r.instances,
     p.instances_transparent ++ r.instances_transparent,
     (vStart, instStart, p.counters.cntO) :: r.mesh_mappings,
     (vStart, instStartT, p.counters.cntT) :: r.mesh_mappings_transparent⟩

/-- Serialize an instance list into buffer contents, from src/src/graphics.rs
`setup_instance_buf` (push every byte of every record in order). -/
def setup_instance_buf (instances : List Instance) : List FByte :=
  instances.foldr (fun inst acc => inst.to_bytes ++ acc) []

/-- Serialize a gaussian instance list, from src/src/graphics.rs
`setup_instance_buf_gauss`. -/
def setup_instance_buf_gauss (instances : List GaussianInstance) : List FByte :=
  instances.foldr (fun inst acc => inst.to_bytes ++ acc) []

/-- Full rebuild, from `GraphicsState::setup_entities`
(src/src/graphics.rs lines 515-591): rebuild both mesh-instance buckets and
the draw-range tables from scratch from the entities, rebuild the gaussian
instance buffer from the gaussians, and write the slot/bucket bookkeeping
back onto the entities. -/
def GraphicsState.setup_entities (s : GraphicsState) : GraphicsState :=
  let r := buildMeshes s.scene.meshes 0 s.scene.entities 0 0 0 0 0
  let instances_gauss := s.scene.gaussians.map Gaussian.to_instance
  { scene := { s.scene with entities := r.entities }
    instance_buf := setup_instance_buf r.instances
    instance_buf_transparent := setup_instance_buf r.instances_transparent
    instance_buf_gauss := setup_instance_buf_gauss instances_gauss
    mesh_mappings := r.mesh_mappings
    mesh_mappings_transparent := r.mesh_mappings_transparent }

/-- Update-extent descriptor, from src/src/graphics.rs `EntityUpdate`.
Constructor names are lower-case versions of the Rust variant names. -/
inductive EntityUpdate where
  | noneU : EntityUpdate
  | all : EntityUpdate
  | classes : List Nat → EntityUpdate
  | ids : List Nat → EntityUpdate
  | indexes : Nat × Nat → EntityUpdate
deriving DecidableEq

/-- From `EntityUpdate::push_class` (src/src/graphics.rs lines 71-80); the
Rust method mutates `self`, modelled as returning the new value. -/
def EntityUpdate.push_class (u : EntityUpdate) (c : Nat) : EntityUpdate :=
  match u with
  | .noneU => .classes [c]
  | .all => .all
  | .classes v => .classes (v ++ [c])
  | .ids _ => .classes [c]
  | .indexes _ => .classes [c]

/-- From `EntityUpdate::push_id` (src/src/graphics.rs lines 82-91). -/
def EntityUpdate.push_id (u : EntityUpdate) (i : Nat) : EntityUpdate :=
  match u with
  | .noneU => .ids [i]
  | .all => .all
  | .classes _ => .ids [i]
  | .ids v => .ids (v ++ [i])
  | .indexes _ => .ids [i]

/-- Which buffer a queue write targets. -/
inductive BufTarget where
  | opaqueBuf : BufTarget
  | transparentBuf : BufTarget
  | gaussBuf : BufTarget
deriving DecidableEq

/-- One `queue.write_buffer` call: target buffer, byte offset, bytes. -/
structure WriteEvent where
  target : BufTarget
  offset : Nat
  bytes : List FByte
deriving DecidableEq

/-- The per-entity filter of `replace_instance_entries`: entities skipped by
the `continue` branches (class or id not in the change-set) are not
selected; the other variants select every entity of the iterated slice. -/
def selected (u : EntityUpdate) (e : Entity) : Bool :=
  match u with
  | .classes v => v.contains e.cls
  | .ids v => v.contains e.id
  | _ => true

/-- In-place splice of `bytes` into buffer contents at byte `offset`,
modelling `Queue::write_buffer`.  wgpu rejects an out-of-range write (it
never grows the buffer), so the contents are unchanged in that case. -/
def writeBuffer (buf : List FByte) (offset : Nat) (bytes : List FByte) : List FByte :=
  if offset + bytes.length ≤ buf.length then
    buf.take offset ++ bytes ++ buf.drop (offset + bytes.length)
  else buf

/-- The entity loop of `GraphicsState::replace_instance_entries`
(src/src/graphics.rs lines 468-504): for each selected entity, abort with
`needs_full_rebuild` when it has no recorded slot or its live bucket
differs from its recorded bucket; otherwise serialize its instance record
and write it at byte offset `slot * INSTANCE_SIZE` into its recorded
bucket's buffer.  Returns the two patched buffers, the list of issued
writes in order, and the `needs_full_rebuild` flag. -/
def patchLoop (u : EntityUpdate) (bufO bufT : List FByte) :
    List Entity → List FByte × List FByte × List WriteEvent × Bool
  | [] => (bufO, bufT, [], false)
  | e :: rest =>
    if selected u e then
      match e.buf_i with
      | none => (bufO, bufT, [], true)
      | some slot =>
        let now_is_transparent := nowTransparent e
        if now_is_transparent ≠ e.buf_is_transparent then (bufO, bufT, [], true)
        else
          let bytes := (entityToInstance e).to_bytes
          let byte_offset := slot * INSTANCE_SIZE
          if e.buf_is_transparent then
            let r := patchLoop u bufO (writeBuffer bufT byte_offset bytes) rest
            (r.1, r.2.1, ⟨.transparentBuf, byte_offset, bytes⟩ :: r.2.2.1, r.2.2.2)
          else
            let r := patchLoop u (writeBuffer bufO byte_offset bytes) bufT rest
            (r.1, r.2.1, ⟨.opaqueBuf, byte_offset, bytes⟩ :: r.2.2.1, r.2.2.2)
    else patchLoop u bufO bufT rest

/-- The `ents_to_update` binding of `replace_instance_entries`
(src/src/graphics.rs lines 463-466): the `Indexes` variant slices
`entities[start..end]`, which panics (`none`) unless
`start <= end <= entities.len()`; every other variant iterates the whole
registry. -/
def entsToUpdate (s : GraphicsState) (u : EntityUpdate) : Option (List Entity) :=
  match u with
  | .indexes (start, stop) =>
    if start ≤ stop ∧ stop ≤ s.scene.entities.length then
      some ((s.scene.entities.drop start).take (stop - start))
    else none
  | _ => some s.scene.entities

/-- In-place instance update, from
`GraphicsState::replace_instance_entries` (src/src/graphics.rs lines
450-510).  Returns `none` when the `Indexes` slice panics; otherwise the
new state, the queue writes issued, and whether a full rebuild
(`setup_entities`) was performed as fallback. -/
def GraphicsState.replace_instance_entries (s : GraphicsState) (u : EntityUpdate) :
    Option (GraphicsState × List WriteEvent × Bool) :=
  match entsToUpdate s u with
  | none => none
  | some ents =>
    let r := patchLoop u s.instance_buf s.instance_buf_transparent ents
    let s' := { s with instance_buf := r.1, instance_buf_transparent := r.2.1 }
    if r.2.2.2 then some (s'.setup_entities, r.2.2.1, true)
    else some (s', r.2.2.1, false)

/-- Which of the three mesh passes of the render loop a draw call belongs
to, in the fixed order of src/src/graphics.rs lines 688-702. -/
inductive PassKind where
  | opaquePass : PassKind
  | transparentBackPass : PassKind
  | transparentFrontPass : PassKind
deriving DecidableEq

/-- One draw call issued by `setup_render_pass`.  `drawIndexed` records the
pass, the mesh index whose loop iteration issued it (identification only;
not an argument of the underlying call), and the arguments of
`draw_indexed`: index range start/count, base vertex, instance range
start/count.  `drawGauss` is the single `draw(0..6, 0..n)` call for
gaussians. -/
inductive DrawCmd where
  | drawIndexed (pass : PassKind) (mesh : Nat) (indexStart indexCount : Nat)
      (baseVertex : Int) (instStart instCount : Nat) : DrawCmd
  | drawGauss (instCount : Nat) : DrawCmd
deriving DecidableEq

/-- The instance count of a draw call. -/
def DrawCmd.instCountOf : DrawCmd → Nat
  | .drawIndexed _ _ _ _ _ _ c => c
  | .drawGauss c => c

/-- The mesh pass a draw call belongs to (`none` for the gaussian draw). -/
def DrawCmd.passOf : DrawCmd → Option PassKind
  | .drawIndexed p _ _ _ _ _ _ => some p
  | .drawGauss _ => none

/-- The mesh index a draw call was issued for (`none` for gaussians). -/
def DrawCmd.meshOf : DrawCmd → Option Nat
  | .drawIndexed _ m _ _ _ _ _ => some m
  | .drawGauss _ => none

/-- The per-mesh draw loop of `setup_render_pass` (src/src/graphics.rs lines
717-734): iterate meshes in table order, read `mappings[i]` (a panic —
`none` — when the table is shorter than the mesh list), skip meshes whose
instance count is 0 while still advancing the running index offset, and
otherwise issue one indexed draw call. -/
def meshPassCmds (pass : PassKind) :
    List Mesh → List (Int × Nat × Nat) → Nat → Nat → Option (List DrawCmd)
  | [], _, _, _ => some []
  | _ :: _, [], _, _ => none
  | m :: meshes, (vStart, instStart, instCount) :: maps, startInd, i =>
    if instCount = 0 then meshPassCmds pass meshes maps (startInd + m.indices.length) (i + 1)
    else
      match meshPassCmds pass meshes maps (startInd + m.indices.length) (i + 1) with
      | none => none
      | some cmds =>
        some (.drawIndexed pass i startInd m.indices.length vStart instStart instCount :: cmds)

/-- The draw-call sequence of `GraphicsState::setup_render_pass`
(src/src/graphics.rs lines 688-747): the three mesh passes in fixed order
(opaque, transparent backfaces, transparent frontfaces), each skipped
entirely when its instance buffer is empty, followed by the gaussian draw
when the gaussian list is non-empty.  `none` models the `mappings[i]`
panic. -/
def GraphicsState.setup_render_pass (s : GraphicsState) : Option (List DrawCmd) :=
  let p1 := if s.instance_buf.length = 0 then some []
    else meshPassCmds .opaquePass s.scene.meshes s.mesh_mappings 0 0
  let p2 := if s.instance_buf_transparent.length = 0 then some []
    else meshPassCmds .transparentBackPass s.scene.meshes s.mesh_mappings_transparent 0 0
  let p3 := if s.instance_buf_transparent.length = 0 then some []
    else meshPassCmds .transparentFrontPass s.scene.meshes s.mesh_mappings_transparent 0 0
  let p4 := if s.scene.gaussians.isEmpty then []
    else [DrawCmd.drawGauss s.scene.gaussians.length]
  match p1, p2, p3 with
  | some t1, some t2, some t3 => some (t1 ++ t2 ++ t3 ++ p4)
  | _, _, _ => none

/-! Concrete example values used by counterexamples and witnesses. -/

/-- A unit quaternion (the identity orientation). -/
def exQuat : Quaternion := ⟨1, 0, 0, 0⟩

/-- A mesh with no vertices and three indices. -/
def exMesh : Mesh := ⟨[], [0, 1, 2], 0⟩

/-- A default-like entity: fully opaque, mesh 0, no bookkeeping recorded. -/
def exEntity : Entity :=
  { id := 0, cls := 0, mesh := 0, position := ⟨0, 0, 0⟩, orientation := exQuat,
    scale := 1, scale_by_axis := none, color := (1, 1, 1), opacity := 1,
    shinyness := 0, buf_i := none, buf_is_transparent := false }

/-- A graphics state with the given scene and empty buffers and tables (the
initial placeholders of `GraphicsState::new` before `setup_entities`). -/
def mkState (sc : Scene) : GraphicsState :=
  { scene := sc, instance_buf := [], instance_buf_transparent := [],
    instance_buf_gauss := [], mesh_mappings := [], mesh_mappings_transparent := [] }

/-- A state with an empty scene. -/
def exStateEmpty : GraphicsState := mkState ⟨[], [], []⟩

/-! Claims C9 and C10. -/

/-- C9: `push_class c` maps `None` to `Classes [c]`, appends `c` to an
existing `Classes v`, leaves `All` unchanged, and replaces `Ids v` or
`Indexes r` wholesale with `Classes [c]`, discarding the recorded ids or
index range; `push_id` behaves symmetrically. -/
theorem push_class_push_id_spec :
    (∀ c : Nat, EntityUpdate.noneU.push_class c = .classes [c]) ∧
    (∀ c : Nat, EntityUpdate.all.push_class c = .all) ∧
    (∀ (v : List Nat) (c : Nat), (EntityUpdate.classes v).push_class c = .classes (v ++ [c])) ∧
    (∀ (v : List Nat) (c : Nat), (EntityUpdate.ids v).push_class c = .classes [c]) ∧
    (∀ (r : Nat × Nat) (c : Nat), (EntityUpdate.indexes r).push_class c = .classes [c]) ∧
    (∀ i : Nat, EntityUpdate.noneU.push_id i = .ids [i]) ∧
    (∀ i : Nat, EntityUpdate.all.push_id i = .all) ∧
    (∀ (v : List Nat) (i : Nat), (EntityUpdate.ids v).push_id i = .ids (v ++ [i])) ∧
    (∀ (v : List Nat) (i : Nat), (EntityUpdate.classes v).push_id i = .ids [i]) ∧
    (∀ (r : Nat × Nat) (i : Nat), (EntityUpdate.indexes r).push_id i = .ids [i]) := by
  refine ⟨?_, ?_, ?_, ?_, ?_, ?_, ?_, ?_, ?_, ?_⟩ <;> intros <;> rfl

/-- C10: a `replace_instance_entries` call with `Indexes (start, stop)`
completes (does not panic) exactly when `start <= stop <= entities.len()`;
on the empty registry with range `(0, 5)` it panics (`none`) instead of
returning an error or falling back to a rebuild. -/
theorem replace_indexes_panics_oob :
    (∀ (s : GraphicsState) (a b : Nat),
      (s.replace_instance_entries (.indexes (a, b))).isSome ↔
        a ≤ b ∧ b ≤ s.scene.entities.length) ∧
    exStateEmpty.replace_instance_entries (.indexes (0, 5)) = none := by
  constructor
  · intro s a b
    unfold GraphicsState.replace_instance_entries entsToUpdate
    by_cases h : a ≤ b ∧ b ≤ s.scene.entities.length
    · simp only [if_pos h]
      split <;> simp [h]
    · simp [if_neg h, h]
  · decide

/-! Characterization of the inner `setup_entities` loop. -/

/-- Entities of mesh `i` classified opaque. -/
def meshOpaqueF (i : Nat) (e : Entity) : Bool :=
  e.mesh == i && !nowTransparent e

/-- Entities of mesh `i` classified transparent. -/
def meshTransparentF (i : Nat) (e : Entity) : Bool :=
  e.mesh == i && nowTransparent e

/-- The entity-annotation component of `passMesh` in isolation: write slot
and bucket tag onto the entities of mesh `i`, numbering opaque ones from
`iO` and transparent ones from `iT`. -/
def annotateMesh (i iO iT : Nat) : List Entity → List Entity
  | [] => []
  | e :: rest =>
    if e.mesh = i then
      if e.opacity < OPACITY_THRESHOLD then
        { e with buf_i := some iT, buf_is_transparent := true } :: annotateMesh i iO (iT + 1) rest
      else
        { e with buf_i := some iO, buf_is_transparent := false } :: annotateMesh i (iO + 1) iT rest
    else e :: annotateMesh i iO iT rest

theorem passMesh_eq (i : Nat) (c : Counters) (ents : List Entity) :
    passMesh i c ents =
      ⟨annotateMesh i c.iOpaque c.iTransparent ents,
       (ents.filter (meshOpaqueF i)).map entityToInstance,
       (ents.filter (meshTransparentF i)).map entityToInstance,
       ⟨c.iOpaque + (ents.filter (meshOpaqueF i)).length,
        c.iTransparent + (ents.filter (meshTransparentF i)).length,
        c.cntO + (ents.filter (meshOpaqueF i)).length,
        c.cntT + (ents.filter (meshTransparentF i)).length⟩⟩ := by
  induction ents generalizing c with
  | nil => simp [passMesh, annotateMesh]
  | cons e rest ih =>
    by_cases hm : e.mesh = i
    · by_cases ho : e.opacity < OPACITY_THRESHOLD
      · simp only [passMesh, if_pos hm, if_pos ho, ih, annotateMesh]
        simp [meshOpaqueF, meshTransparentF, nowTransparent, hm, ho, List.filter_cons,
          PassResult.mk.injEq, Counters.mk.injEq]
        omega
      · simp only [passMesh, if_pos hm, if_neg ho, ih, annotateMesh]
        simp [meshOpaqueF, meshTransparentF, nowTransparent, hm, ho, List.filter_cons,
          PassResult.mk.injEq, Counters.mk.injEq]
        omega
    · simp only [passMesh, if_neg hm, ih, annotateMesh]
      simp [meshOpaqueF, meshTransparentF, nowTransparent, hm, List.filter_cons]

@[simp] theorem eraseBk_mesh (e : Entity) : (eraseBk e).mesh = e.mesh := rfl

@[simp] theorem eraseBk_opacity (e : Entity) : (eraseBk e).opacity = e.opacity := rfl

@[simp] theorem eraseBk_cls (e : Entity) : (eraseBk e).cls = e.cls := rfl

@[simp] theorem eraseBk_id (e : Entity) : (eraseBk e).id = e.id := rfl

@[simp] theorem entityToInstance_eraseBk (e : Entity) :
    entityToInstance (eraseBk e) = entityToInstance e := rfl

theorem mesh_of_eraseBk_eq {a b : Entity} (h : eraseBk a = eraseBk b) : a.mesh = b.mesh := by
  rw [← eraseBk_mesh a, h, eraseBk_mesh]

theorem opacity_of_eraseBk_eq {a b : Entity} (h : eraseBk a = eraseBk b) :
    a.opacity = b.opacity := by
  rw [← eraseBk_opacity a, h, eraseBk_opacity]

theorem entityToInstance_of_eraseBk_eq {a b : Entity} (h : eraseBk a = eraseBk b) :
    entityToInstance a = entityToInstance b := by
  rw [← entityToInstance_eraseBk a, h, entityToInstance_eraseBk]

theorem nowTransparent_of_eraseBk_eq {a b : Entity} (h : eraseBk a = eraseBk b) :
    nowTransparent a = nowTransparent b := by
  unfold nowTransparent
  rw [opacity_of_eraseBk_eq h]

theorem annotateMesh_map_eraseBk (i iO iT : Nat) (ents : List Entity) :
    (annotateMesh i iO iT ents).map eraseBk = ents.map eraseBk := by
  induction ents generalizing iO iT with
  | nil => rfl
  | cons e rest ih =>
    unfold annotateMesh
    split
    · split <;> simpa [eraseBk] using ih _ _
    · simpa using ih iO iT

theorem annotateMesh_spec (i iO iT : Nat) (ents : List Entity) :
    List.Forall₂ (fun e e' =>
      eraseBk e' = eraseBk e ∧
      (e.mesh ≠ i → e' = e) ∧
      (e.mesh = i →
        e'.buf_is_transparent = nowTransparent e ∧
        (nowTransparent e = true →
          ∃ k, e'.buf_i = some (iT + k) ∧
            (ents.filter (meshTransparentF i))[k]? = some e) ∧
        (nowTransparent e = false →
          ∃ k, e'.buf_i = some (iO + k) ∧
            (ents.filter (meshOpaqueF i))[k]? = some e)))
      ents (annotateMesh i iO iT ents) := by
  induction ents generalizing iO iT with
  | nil => exact List.Forall₂.nil
  | cons e rest ih =>
    by_cases hm : e.mesh = i
    · by_cases ho : e.opacity < OPACITY_THRESHOLD
      · have ht : nowTransparent e = true := by simp [nowTransparent, ho]
        unfold annotateMesh
        rw [if_pos hm, if_pos ho]
        refine List.Forall₂.cons ?_ ?_
        · refine ⟨rfl, fun h => absurd hm h, fun _ => ?_⟩
          refine ⟨by simp [ht], ?_, ?_⟩
          · intro _
            exact ⟨0, by simp, by simp [List.filter_cons, meshTransparentF, hm, ht]⟩
          · intro hf
            rw [ht] at hf
            exact Bool.noConfusion hf
        · refine (ih iO (iT + 1)).imp ?_
          rintro a b ⟨h1, h2, h3⟩
          refine ⟨h1, h2, fun ha => ?_⟩
          obtain ⟨g1, g2, g3⟩ := h3 ha
          refine ⟨g1, fun hta => ?_, fun hfa => ?_⟩
          · obtain ⟨k, hk1, hk2⟩ := g2 hta
            refine ⟨k + 1, ?_, ?_⟩
            · rw [hk1]; simp only [Option.some.injEq]; omega
            · simp [List.filter_cons, meshTransparentF, hm, ht, hk2]
          · obtain ⟨k, hk1, hk2⟩ := g3 hfa
            refine ⟨k, hk1, ?_⟩
            simp [List.filter_cons, meshOpaqueF, hm, ht, hk2]
      · have ht : nowTransparent e = false := by simp [nowTransparent, ho]
        unfold annotateMesh
        rw [if_pos hm, if_neg ho]
        refine List.Forall₂.cons ?_ ?_
        · refine ⟨rfl, fun h => absurd hm h, fun _ => ?_⟩
          refine ⟨by simp [ht], ?_, ?_⟩
          · intro hf
            rw [ht] at hf
            exact Bool.noConfusion hf
          · intro _
            exact ⟨0, by simp, by simp [List.filter_cons, meshOpaqueF, hm, ht]⟩
        · refine (ih (iO + 1) iT).imp ?_
          rintro a b ⟨h1, h2, h3⟩
          refine ⟨h1, h2, fun ha => ?_⟩
          obtain ⟨g1, g2, g3⟩ := h3 ha
          refine ⟨g1, fun hta => ?_, fun hfa => ?_⟩
          · obtain ⟨k, hk1, hk2⟩ := g2 hta
            refine ⟨k, hk1, ?_⟩
            simp [List.filter_cons, meshTransparentF, hm, ht, hk2]
          · obtain ⟨k, hk1, hk2⟩ := g3 hfa
            refine ⟨k + 1, ?_, ?_⟩
            · rw [hk1]; simp only [Option.some.injEq]; omega
            · simp [List.filter_cons, meshOpaqueF, hm, ht, hk2]
    · unfold annotateMesh
      rw [if_neg hm]
      refine List.Forall₂.cons ⟨rfl, fun _ => rfl, fun h => absurd h hm⟩ ?_
      refine (ih iO iT).imp ?_
      rintro a b ⟨h1, h2, h3⟩
      refine ⟨h1, h2, fun ha => ?_⟩
      obtain ⟨g1, g2, g3⟩ := h3 ha
      refine ⟨g1, fun hta => ?_, fun hfa => ?_⟩
      · obtain ⟨k, hk1, hk2⟩ := g2 hta
        exact ⟨k, hk1, by simp [List.filter_cons, meshTransparentF, hm, hk2]⟩
      · obtain ⟨k, hk1, hk2⟩ := g3 hfa
        exact ⟨k, hk1, by simp [List.filter_cons, meshOpaqueF, hm, hk2]⟩

theorem forall₂_trans {α β γ : Type} {R : α → β → Prop} {S : β → γ → Prop} {T : α → γ → Prop}
    (h : ∀ a b c, R a b → S b c → T a c) :
    ∀ {l₁ : List α} {l₂ : List β} {l₃ : List γ},
      List.Forall₂ R l₁ l₂ → List.Forall₂ S l₂ l₃ → List.Forall₂ T l₁ l₃ := by
  intro l₁ l₂ l₃ h12 h23
  induction h12 generalizing l₃ with
  | nil => cases h23; exact List.Forall₂.nil
  | cons hab htail ih =>
    cases h23 with
    | cons hbc htail' => exact List.Forall₂.cons (h _ _ _ hab hbc) (ih htail')

theorem forall₂_mem_right {α β : Type} {R : α → β → Prop} {l₁ : List α} {l₂ : List β}
    (h : List.Forall₂ R l₁ l₂) {b : β} (hb : b ∈ l₂) : ∃ a ∈ l₁, R a b := by
  induction h with
  | nil => cases hb
  | cons hab _ ih =>
    rcases List.mem_cons.1 hb with hb | hb
    · exact ⟨_, List.mem_cons_self _ _, hb ▸ hab⟩
    · obtain ⟨a, ha, har⟩ := ih hb
      exact ⟨a, List.mem_cons_of_mem _ ha, har⟩

theorem buildMeshes_cons (m : Mesh) (rest : List Mesh) (i : Nat) (ents : List Entity)
    (iO iT : Nat) (vS : Int) (sO sT : Nat) :
    buildMeshes (m :: rest) i ents iO iT vS sO sT =
      ⟨(buildMeshes rest (i + 1) (annotateMesh i iO iT ents)
          (iO + (ents.filter (meshOpaqueF i)).length)
          (iT + (ents.filter (meshTransparentF i)).length)
          (vS + m.vertices.length)
          (sO + (ents.filter (meshOpaqueF i)).length)
          (sT + (ents.filter (meshTransparentF i)).length)).entities,
       (ents.filter (meshOpaqueF i)).map entityToInstance ++
         (buildMeshes rest (i + 1) (annotateMesh i iO iT ents)
          (iO + (ents.filter (meshOpaqueF i)).length)
          (iT + (ents.filter (meshTransparentF i)).length)
          (vS + m.vertices.length)
          (sO + (ents.filter (meshOpaqueF i)).length)
          (sT + (ents.filter (meshTransparentF i)).length)).instances,
       (ents.filter (meshTransparentF i)).map entityToInstance ++
         (buildMeshes rest (i + 1) (annotateMesh i iO iT ents)
          (iO + (ents.filter (meshOpaqueF i)).length)
          (iT + (ents.filter (meshTransparentF i)).length)
          (vS + m.vertices.length)
          (sO + (ents.filter (meshOpaqueF i)).length)
          (sT + (ents.filter (meshTransparentF i)).length)).instances_transparent,
       (vS, sO, (ents.filter (meshOpaqueF i)).length) ::
         (buildMeshes rest (i + 1) (annotateMesh i iO iT ents)
          (iO + (ents.filter (meshOpaqueF i)).length)
          (iT + (ents.filter (meshTransparentF i)).length)
          (vS + m.vertices.length)
          (sO + (ents.filter (meshOpaqueF i)).length)
          (sT + (ents.filter (meshTransparentF i)).length)).mesh_mappings,
       (vS, sT, (ents.filter (meshTransparentF i)).length) ::
         (buildMeshes rest (i + 1) (annotateMesh i iO iT ents)
          (iO + (ents.filter (meshOpaqueF i)).length)
          (iT + (ents.filter (meshTransparentF i)).length)
          (vS + m.vertices.length)
          (sO + (ents.filter (meshOpaqueF i)).length)
          (sT + (ents.filter (meshTransparentF i)).length)).mesh_mappings_transparent⟩ := by
  simp [buildMeshes, passMesh_eq]

theorem buildMeshes_slots (ms : List Mesh) (i : Nat) (ents : List Entity) (iO iT : Nat)
    (vS : Int) (sO sT : Nat) :
    List.Forall₂ (fun e e' =>
      eraseBk e' = eraseBk e ∧
      (¬(i ≤ e.mesh ∧ e.mesh < i + ms.length) → e' = e) ∧
      ((i ≤ e.mesh ∧ e.mesh < i + ms.length) →
        e'.buf_is_transparent = nowTransparent e ∧
        (nowTransparent e = true →
          ∃ k, e'.buf_i = some (iT + k) ∧
            (buildMeshes ms i ents iO iT vS sO sT).instances_transparent[k]? =
              some (entityToInstance e)) ∧
        (nowTransparent e = false →
          ∃ k, e'.buf_i = some (iO + k) ∧
            (buildMeshes ms i ents iO iT vS sO sT).instances[k]? =
              some (entityToInstance e))))
      ents (buildMeshes ms i ents iO iT vS sO sT).entities := by
  induction ms generalizing i ents iO iT vS sO sT with
  | nil =>
    simp only [buildMeshes, List.length_nil]
    refine List.forall₂_same.2 (fun e he => ⟨rfl, fun _ => rfl, fun h => ?_⟩)
    omega
  | cons m rest ih =>
    rw [buildMeshes_cons]
    simp only [List.length_cons]
    refine forall₂_trans ?_ (annotateMesh_spec i iO iT ents)
      (ih (i + 1) (annotateMesh i iO iT ents)
        (iO + (ents.filter (meshOpaqueF i)).length)
        (iT + (ents.filter (meshTransparentF i)).length)
        (vS + m.vertices.length)
        (sO + (ents.filter (meshOpaqueF i)).length)
        (sT + (ents.filter (meshTransparentF i)).length))
    rintro e a e'' ⟨p1, p2, p3⟩ ⟨q1, q2, q3⟩
    have hma : a.mesh = e.mesh := mesh_of_eraseBk_eq p1
    refine ⟨q1.trans p1, ?_, ?_⟩
    · intro hnr
      have hmi : e.mesh ≠ i := fun h => hnr ⟨h ▸ le_refl i, by omega⟩
      have hae : a = e := p2 hmi
      have : e'' = a := q2 (by rw [hma]; omega)
      rw [this, hae]
    · intro hr
      by_cases hmi : e.mesh = i
      · obtain ⟨t1, t2, t3⟩ := p3 hmi
        have hea : e'' = a := q2 (by omega)
        refine ⟨hea ▸ t1, ?_, ?_⟩
        · intro hnt
          obtain ⟨k, hk1, hk2⟩ := t2 hnt
          have hkl : k < (ents.filter (meshTransparentF i)).length :=
            (List.getElem?_eq_some.1 hk2).1
          refine ⟨k, hea ▸ hk1, ?_⟩
          rw [List.getElem?_append_left (by simpa using hkl), List.getElem?_map, hk2]
          rfl
        · intro hnt
          obtain ⟨k, hk1, hk2⟩ := t3 hnt
          have hkl : k < (ents.filter (meshOpaqueF i)).length :=
            (List.getElem?_eq_some.1 hk2).1
          refine ⟨k, hea ▸ hk1, ?_⟩
          rw [List.getElem?_append_left (by simpa using hkl), List.getElem?_map, hk2]
          rfl
      · have hae : a = e := p2 hmi
        obtain ⟨t1, t2, t3⟩ := q3 (by rw [hma]; omega)
        have hnta : nowTransparent a = nowTransparent e := by rw [hae]
        have hia : entityToInstance a = entityToInstance e := by rw [hae]
        refine ⟨by rw [t1, hnta], ?_, ?_⟩
        · intro hnt
          obtain ⟨k, hk1, hk2⟩ := t2 (by rw [hnta, hnt])
          refine ⟨(ents.filter (meshTransparentF i)).length + k, ?_, ?_⟩
          · rw [hk1]
            simp only [Option.some.injEq]
            omega
          · rw [List.getElem?_append_right (by simp)]
            simp only [List.length_map, Nat.add_sub_cancel_left]
            rw [hk2, hia]
        · intro hnt
          obtain ⟨k, hk1, hk2⟩ := t3 (by rw [hnta, hnt])
          refine ⟨(ents.filter (meshOpaqueF i)).length + k, ?_, ?_⟩
          · rw [hk1]
            simp only [Option.some.injEq]
            omega
          · rw [List.getElem?_append_right (by simp)]
            simp only [List.length_map, Nat.add_sub_cancel_left]
            rw [hk2, hia]

theorem buildMeshes_map_eraseBk (ms : List Mesh) (i : Nat) (ents : List Entity)
    (iO iT : Nat) (vS : Int) (sO sT : Nat) :
    (buildMeshes ms i ents iO iT vS sO sT).entities.map eraseBk = ents.map eraseBk := by
  induction ms generalizing i ents iO iT vS sO sT with
  | nil => simp [buildMeshes]
  | cons m rest ih =>
    rw [buildMeshes_cons]
    exact (ih _ _ _ _ _ _ _).trans (annotateMesh_map_eraseBk i iO iT ents)

/-- The per-mesh instance count entries of a draw-range table. -/
def mmCounts (mm : List (Int × Nat × Nat)) : List Nat :=
  mm.map (fun x => x.2.2)

/-- Draw-range contiguity: each entry's `instance_start` equals the running
total of the counts of all entries before it, starting at `s`. -/
def contiguousFrom : Nat → List (Int × Nat × Nat) → Bool
  | _, [] => true
  | s, (_, st, c) :: rest => st == s && contiguousFrom (s + c) rest

theorem buildMeshes_mappings (ms : List Mesh) (i : Nat) (ents : List Entity)
    (iO iT : Nat) (vS : Int) (sO sT : Nat) :
    (buildMeshes ms i ents iO iT vS sO sT).mesh_mappings.length = ms.length ∧
    (buildMeshes ms i ents iO iT vS sO sT).mesh_mappings_transparent.length = ms.length ∧
    contiguousFrom sO (buildMeshes ms i ents iO iT vS sO sT).mesh_mappings = true ∧
    contiguousFrom sT (buildMeshes ms i ents iO iT vS sO sT).mesh_mappings_transparent = true ∧
    (mmCounts (buildMeshes ms i ents iO iT vS sO sT).mesh_mappings).sum =
      (buildMeshes ms i ents iO iT vS sO sT).instances.length ∧
    (mmCounts (buildMeshes ms i ents iO iT vS sO sT).mesh_mappings_transparent).sum =
      (buildMeshes ms i ents iO iT vS sO sT).instances_transparent.length := by
  induction ms generalizing i ents iO iT vS sO sT with
  | nil => simp [buildMeshes, mmCounts, contiguousFrom]
  | cons m rest ih =>
    rw [buildMeshes_cons]
    obtain ⟨h1, h2, h3, h4, h5, h6⟩ := ih (i + 1) (annotateMesh i iO iT ents)
      (iO + (ents.filter (meshOpaqueF i)).length)
      (iT + (ents.filter (meshTransparentF i)).length)
      (vS + m.vertices.length)
      (sO + (ents.filter (meshOpaqueF i)).length)
      (sT + (ents.filter (meshTransparentF i)).length)
    refine ⟨by simp [h1], by simp [h2], ?_, ?_, ?_, ?_⟩
    · simp [contiguousFrom, h3]
    · simp [contiguousFrom, h4]
    · simp only [mmCounts, List.map_cons, List.sum_cons, List.length_append, List.length_map]
      simp only [mmCounts] at h5
      omega
    · simp only [mmCounts, List.map_cons, List.sum_cons, List.length_append, List.length_map]
      simp only [mmCounts] at h6
      omega

theorem countP_eq_of_map_eraseBk_eq {p : Entity → Bool} (hp : ∀ e, p (eraseBk e) = p e)
    {l₁ l₂ : List Entity} (h : l₁.map eraseBk = l₂.map eraseBk) :
    l₁.countP p = l₂.countP p := by
  induction l₁ generalizing l₂ with
  | nil =>
    cases l₂ with
    | nil => rfl
    | cons a t => simp at h
  | cons a t ih =>
    cases l₂ with
    | nil => simp at h
    | cons a₂ t₂ =>
      simp only [List.map_cons, List.cons.injEq] at h
      obtain ⟨h1, h2⟩ := h
      have hpa : p a = p a₂ := by rw [← hp a, h1, hp a₂]
      simp only [List.countP_cons, ih h2, hpa]

theorem countP_mesh_split (b : Entity → Bool) (i len : Nat) (l : List Entity) :
    l.countP (fun e => decide (i ≤ e.mesh ∧ e.mesh < i + (len + 1)) && b e) =
      l.countP (fun e => (e.mesh == i) && b e) +
      l.countP (fun e => decide (i + 1 ≤ e.mesh ∧ e.mesh < i + 1 + len) && b e) := by
  induction l with
  | nil => rfl
  | cons e rest ih =>
    simp only [List.countP_cons, ih]
    have key : (if (decide (i ≤ e.mesh ∧ e.mesh < i + (len + 1)) && b e) = true then 1 else 0) =
        (if ((e.mesh == i) && b e) = true then 1 else 0) +
        (if (decide (i + 1 ≤ e.mesh ∧ e.mesh < i + 1 + len) && b e) = true then 1 else 0) := by
      by_cases hb : b e = true
      · simp only [hb, Bool.and_true]
        by_cases hm : e.mesh = i
        · have d1 : decide (i ≤ e.mesh ∧ e.mesh < i + (len + 1)) = true := by
            rw [decide_eq_true_eq]; omega
          have d2 : (e.mesh == i) = true := by rw [beq_iff_eq]; exact hm
          have d3 : decide (i + 1 ≤ e.mesh ∧ e.mesh < i + 1 + len) = false := by
            rw [decide_eq_false_iff_not]; omega
          rw [d1, d2, d3]
          rfl
        · have d2 : (e.mesh == i) = false := by
            rw [beq_eq_false_iff_ne]; exact hm
          rw [d2]
          by_cases hr : i + 1 ≤ e.mesh ∧ e.mesh < i + 1 + len
          · have d1 : decide (i ≤ e.mesh ∧ e.mesh < i + (len + 1)) = true := by
              rw [decide_eq_true_eq]; omega
            have d3 : decide (i + 1 ≤ e.mesh ∧ e.mesh < i + 1 + len) = true := by
              rw [decide_eq_true_eq]; exact hr
            rw [d1, d3]
            rfl
          · have d1 : decide (i ≤ e.mesh ∧ e.mesh < i + (len + 1)) = false := by
              rw [decide_eq_false_iff_not]; omega
            have d3 : decide (i + 1 ≤ e.mesh ∧ e.mesh < i + 1 + len) = false := by
              rw [decide_eq_false_iff_not]; exact hr
            rw [d1, d3]
            rfl
      · have hb' : b e = false := by
          cases hbe : b e
          · rfl
          · exact absurd hbe hb
        simp [hb']
    omega

theorem buildMeshes_instances_length (ms : List Mesh) (i : Nat) (ents : List Entity)
    (iO iT : Nat) (vS : Int) (sO sT : Nat) :
    (buildMeshes ms i ents iO iT vS sO sT).instances.length =
      ents.countP (fun e => decide (i ≤ e.mesh ∧ e.mesh < i + ms.length) && !nowTransparent e) ∧
    (buildMeshes ms i ents iO iT vS sO sT).instances_transparent.length =
      ents.countP (fun e => decide (i ≤ e.mesh ∧ e.mesh < i + ms.length) && nowTransparent e) := by
  induction ms generalizing i ents iO iT vS sO sT with
  | nil =>
    simp only [buildMeshes, List.length_nil]
    constructor <;>
      · rw [eq_comm, List.countP_eq_zero]
        intro e _
        simp only [Bool.and_eq_true, decide_eq_true_eq]
        rintro ⟨⟨g1, g2⟩, -⟩
        omega
  | cons m rest ih =>
    rw [buildMeshes_cons]
    simp only [List.length_append, List.length_map, List.length_cons]
    obtain ⟨ih1, ih2⟩ := ih (i + 1) (annotateMesh i iO iT ents)
      (iO + (ents.filter (meshOpaqueF i)).length)
      (iT + (ents.filter (meshTransparentF i)).length)
      (vS + m.vertices.length)
      (sO + (ents.filter (meshOpaqueF i)).length)
      (sT + (ents.filter (meshTransparentF i)).length)
    have tr1 : (annotateMesh i iO iT ents).countP
        (fun e => decide (i + 1 ≤ e.mesh ∧ e.mesh < i + 1 + rest.length) && !nowTransparent e) =
        ents.countP
        (fun e => decide (i + 1 ≤ e.mesh ∧ e.mesh < i + 1 + rest.length) && !nowTransparent e) :=
      @countP_eq_of_map_eraseBk_eq
        (fun e => decide (i + 1 ≤ e.mesh ∧ e.mesh < i + 1 + rest.length) && !nowTransparent e)
        (fun e => rfl) _ _ (annotateMesh_map_eraseBk i iO iT ents)
    have tr2 : (annotateMesh i iO iT ents).countP
        (fun e => decide (i + 1 ≤ e.mesh ∧ e.mesh < i + 1 + rest.length) && nowTransparent e) =
        ents.countP
        (fun e => decide (i + 1 ≤ e.mesh ∧ e.mesh < i + 1 + rest.length) && nowTransparent e) :=
      @countP_eq_of_map_eraseBk_eq
        (fun e => decide (i + 1 ≤ e.mesh ∧ e.mesh < i + 1 + rest.length) && nowTransparent e)
        (fun e => rfl) _ _ (annotateMesh_map_eraseBk i iO iT ents)
    constructor
    · rw [ih1, tr1, countP_mesh_split (fun e => !nowTransparent e) i rest.length ents]
      have : (ents.filter (meshOpaqueF i)).length =
          ents.countP (fun e => (e.mesh == i) && !nowTransparent e) := by
        rw [← List.countP_eq_length_filter]
        rfl
      omega
    · rw [ih2, tr2, countP_mesh_split (fun e => nowTransparent e) i rest.length ents]
      have : (ents.filter (meshTransparentF i)).length =
          ents.countP (fun e => (e.mesh == i) && nowTransparent e) := by
        rw [← List.countP_eq_length_filter]
        rfl
      omega

/-! Byte-level facts about serialized buffers. -/

/-- The sub-list of `len` bytes of a buffer starting at byte `off`. -/
def sliceAt (l : List FByte) (off len : Nat) : List FByte :=
  (l.drop off).take len

theorem Instance.to_bytes_length (inst : Instance) :
    inst.to_bytes.length = INSTANCE_SIZE := by
  simp [Instance.to_bytes, modelMatWords, normalMatWords, f32Bytes, INSTANCE_SIZE,
    MAT4_SIZE, MAT3_SIZE, VEC4_SIZE, F32_SIZE]

theorem setup_instance_buf_cons (inst : Instance) (t : List Instance) :
    setup_instance_buf (inst :: t) = inst.to_bytes ++ setup_instance_buf t := rfl

theorem setup_instance_buf_length (l : List Instance) :
    (setup_instance_buf l).length = l.length * INSTANCE_SIZE := by
  induction l with
  | nil => rfl
  | cons a t ih =>
    rw [setup_instance_buf_cons]
    simp [ih, Instance.to_bytes_length]
    ring

theorem sliceAt_setup_instance_buf (insts : List Instance) (k : Nat) (inst : Instance)
    (h : insts[k]? = some inst) :
    sliceAt (setup_instance_buf insts) (k * INSTANCE_SIZE) INSTANCE_SIZE = inst.to_bytes := by
  induction insts generalizing k with
  | nil => simp at h
  | cons a t ih =>
    cases k with
    | zero =>
      simp only [List.getElem?_cons_zero, Option.some.injEq] at h
      subst h
      unfold sliceAt
      rw [setup_instance_buf_cons]
      simp only [Nat.zero_mul, List.drop_zero]
      rw [← Instance.to_bytes_length a, List.take_left]
    | succ k =>
      simp only [List.getElem?_cons_succ] at h
      unfold sliceAt
      rw [setup_instance_buf_cons]
      have : (k + 1) * INSTANCE_SIZE = a.to_bytes.length + k * INSTANCE_SIZE := by
        rw [a.to_bytes_length]
        ring
      rw [this, List.drop_append]
      exact ih k h

/-! Projections of `setup_entities` (definitional). -/

theorem setup_entities_scene_meshes (s : GraphicsState) :
    (s.setup_entities).scene.meshes = s.scene.meshes := rfl

theorem setup_entities_scene_gaussians (s : GraphicsState) :
    (s.setup_entities).scene.gaussians = s.scene.gaussians := rfl

theorem setup_entities_scene_entities (s : GraphicsState) :
    (s.setup_entities).scene.entities =
      (buildMeshes s.scene.meshes 0 s.scene.entities 0 0 0 0 0).entities := rfl

theorem setup_entities_instance_buf (s : GraphicsState) :
    (s.setup_entities).instance_buf =
      setup_instance_buf (buildMeshes s.scene.meshes 0 s.scene.entities 0 0 0 0 0).instances :=
  rfl

theorem setup_entities_instance_buf_transparent (s : GraphicsState) :
    (s.setup_entities).instance_buf_transparent =
      setup_instance_buf
        (buildMeshes s.scene.meshes 0 s.scene.entities 0 0 0 0 0).instances_transparent := rfl

theorem setup_entities_mesh_mappings (s : GraphicsState) :
    (s.setup_entities).mesh_mappings =
      (buildMeshes s.scene.meshes 0 s.scene.entities 0 0 0 0 0).mesh_mappings := rfl

theorem setup_entities_mesh_mappings_transparent (s : GraphicsState) :
    (s.setup_entities).mesh_mappings_transparent =
      (buildMeshes s.scene.meshes 0 s.scene.entities 0 0 0 0 0).mesh_mappings_transparent := rfl

/-! Generic consequences of draw-range contiguity. -/

theorem contiguousFrom_starts (mm : List (Int × Nat × Nat)) (s0 : Nat)
    (h : contiguousFrom s0 mm = true) (j : Nat) (v : Int) (st c : Nat)
    (hj : mm[j]? = some (v, st, c)) :
    st = s0 + ((mmCounts mm).take j).sum := by
  induction mm generalizing s0 j with
  | nil => simp at hj
  | cons x rest ih =>
    obtain ⟨vx, sx, cx⟩ := x
    simp only [contiguousFrom, Bool.and_eq_true, beq_iff_eq] at h
    obtain ⟨hs, hrest⟩ := h
    cases j with
    | zero =>
      simp only [List.getElem?_cons_zero, Option.some.injEq, Prod.mk.injEq] at hj
      simp only [List.take_zero, List.sum_nil, Nat.add_zero]
      omega
    | succ j =>
      simp only [List.getElem?_cons_succ] at hj
      rw [ih (s0 + cx) hrest j hj]
      simp [mmCounts]
      omega

theorem sum_take_mono (l : List Nat) (j k : Nat) (hjk : j ≤ k) :
    (l.take j).sum ≤ (l.take k).sum := by
  induction l generalizing j k with
  | nil => simp
  | cons a t ih =>
    cases j with
    | zero => simp
    | succ j =>
      cases k with
      | zero => omega
      | succ k =>
        simp only [List.take_succ_cons, List.sum_cons]
        have := ih j k (by omega)
        omega

theorem contiguousFrom_mono (mm : List (Int × Nat × Nat)) (s0 : Nat)
    (h : contiguousFrom s0 mm = true) (j k : Nat) (hjk : j ≤ k)
    (vj : Int) (sj cj : Nat) (vk : Int) (sk ck : Nat)
    (hj : mm[j]? = some (vj, sj, cj)) (hk : mm[k]? = some (vk, sk, ck)) :
    sj ≤ sk := by
  rw [contiguousFrom_starts mm s0 h j vj sj cj hj,
    contiguousFrom_starts mm s0 h k vk sk ck hk]
  have := sum_take_mono (mmCounts mm) j k hjk
  omega

theorem contiguousFrom_last (mm : List (Int × Nat × Nat)) (s0 : Nat)
    (h : contiguousFrom s0 mm = true) (v : Int) (st c : Nat)
    (hl : mm.getLast? = some (v, st, c)) :
    st + c = s0 + (mmCounts mm).sum := by
  induction mm generalizing s0 with
  | nil => simp at hl
  | cons x rest ih =>
    obtain ⟨vx, sx, cx⟩ := x
    simp only [contiguousFrom, Bool.and_eq_true, beq_iff_eq] at h
    obtain ⟨hs, hrest⟩ := h
    cases rest with
    | nil =>
      simp only [List.getLast?_singleton, Option.some.injEq, Prod.mk.injEq] at hl
      simp only [mmCounts, List.map_cons, List.map_nil, List.sum_cons, List.sum_nil]
      omega
    | cons y t =>
      rw [List.getLast?_cons_cons] at hl
      rw [ih (s0 + cx) hrest hl]
      simp [mmCounts]
      omega

/-! Claims C4, C5 and C1. -/

/-- C4: after every full rebuild, each bucket's draw-range table has one
entry per mesh (also for zero counts), every entry's `instance_start` equals
the sum of the counts of all prior meshes in table order (hence the starts
are monotonically non-decreasing), and the final entry's
`instance_start + instance_count` equals the bucket's total instance count
(the bucket buffer's byte length divided by `INSTANCE_SIZE`). -/
theorem setup_entities_draw_ranges (s : GraphicsState) :
    (s.setup_entities).mesh_mappings.length = s.scene.meshes.length ∧
    (s.setup_entities).mesh_mappings_transparent.length = s.scene.meshes.length ∧
    (∀ (j : Nat) (v : Int) (st c : Nat),
      (s.setup_entities).mesh_mappings[j]? = some (v, st, c) →
        st = ((mmCounts (s.setup_entities).mesh_mappings).take j).sum) ∧
    (∀ (j : Nat) (v : Int) (st c : Nat),
      (s.setup_entities).mesh_mappings_transparent[j]? = some (v, st, c) →
        st = ((mmCounts (s.setup_entities).mesh_mappings_transparent).take j).sum) ∧
    (∀ (j k : Nat), j ≤ k → ∀ (vj : Int) (sj cj : Nat) (vk : Int) (sk ck : Nat),
      (s.setup_entities).mesh_mappings[j]? = some (vj, sj, cj) →
      (s.setup_entities).mesh_mappings[k]? = some (vk, sk, ck) → sj ≤ sk) ∧
    (∀ (j k : Nat), j ≤ k → ∀ (vj : Int) (sj cj : Nat) (vk : Int) (sk ck : Nat),
      (s.setup_entities).mesh_mappings_transparent[j]? = some (vj, sj, cj) →
      (s.setup_entities).mesh_mappings_transparent[k]? = some (vk, sk, ck) → sj ≤ sk) ∧
    (∀ (v : Int) (st c : Nat),
      (s.setup_entities).mesh_mappings.getLast? = some (v, st, c) →
        (st + c) * INSTANCE_SIZE = (s.setup_entities).instance_buf.length) ∧
    (∀ (v : Int) (st c : Nat),
      (s.setup_entities).mesh_mappings_transparent.getLast? = some (v, st, c) →
        (st + c) * INSTANCE_SIZE = (s.setup_entities).instance_buf_transparent.length) := by
  obtain ⟨h1, h2, h3, h4, h5, h6⟩ :=
    buildMeshes_mappings s.scene.meshes 0 s.scene.entities 0 0 0 0 0
  rw [setup_entities_mesh_mappings, setup_entities_mesh_mappings_transparent,
    setup_entities_instance_buf, setup_entities_instance_buf_transparent]
  refine ⟨h1, h2, ?_, ?_, ?_, ?_, ?_, ?_⟩
  · intro j v st c hj
    have := contiguousFrom_starts _ 0 h3 j v st c hj
    omega
  · intro j v st c hj
    have := contiguousFrom_starts _ 0 h4 j v st c hj
    omega
  · intro j k hjk vj sj cj vk sk ck hj hk
    exact contiguousFrom_mono _ 0 h3 j k hjk vj sj cj vk sk ck hj hk
  · intro j k hjk vj sj cj vk sk ck hj hk
    exact contiguousFrom_mono _ 0 h4 j k hjk vj sj cj vk sk ck hj hk
  · intro v st c hl
    have hst := contiguousFrom_last _ 0 h3 v st c hl
    rw [setup_instance_buf_length, ← h5]
    have he : st + c =
        (mmCounts (buildMeshes s.scene.meshes 0 s.scene.entities 0 0 0 0 0).mesh_mappings).sum := by
      omega
    rw [he]
  · intro v st c hl
    have hst := contiguousFrom_last _ 0 h4 v st c hl
    rw [setup_instance_buf_length, ← h6]
    have he : st + c =
        (mmCounts
          (buildMeshes s.scene.meshes 0 s.scene.entities 0 0 0 0 0).mesh_mappings_transparent).sum := by
      omega
    rw [he]

/-- C5: every entity processed by a full rebuild (its mesh index within the
mesh table) is tagged opaque (`buf_is_transparent = false`) exactly when its
opacity is at least 0.99, the recorded tag equals the fresh classification,
and the entity's serialized instance record sits in the buffer of its
recorded bucket at byte offset `slot * INSTANCE_SIZE`. -/
theorem setup_entities_bucket_classification (s : GraphicsState) :
    List.Forall₂ (fun e e' =>
      e.mesh < s.scene.meshes.length →
        (e'.buf_is_transparent = false ↔ (99 : ℚ)/100 ≤ e.opacity) ∧
        e'.buf_is_transparent = nowTransparent e ∧
        (∃ k, e'.buf_i = some k ∧
          sliceAt (if e'.buf_is_transparent then (s.setup_entities).instance_buf_transparent
            else (s.setup_entities).instance_buf) (k * INSTANCE_SIZE) INSTANCE_SIZE =
            (entityToInstance e).to_bytes))
      s.scene.entities (s.setup_entities).scene.entities := by
  rw [setup_entities_scene_entities]
  refine (buildMeshes_slots s.scene.meshes 0 s.scene.entities 0 0 0 0 0).imp ?_
  rintro e e' ⟨h1, h2, h3⟩
  intro hm
  obtain ⟨t1, t2, t3⟩ := h3 ⟨Nat.zero_le _, by omega⟩
  refine ⟨?_, t1, ?_⟩
  · rw [t1]
    unfold nowTransparent
    rw [decide_eq_false_iff_not, not_lt, OPACITY_THRESHOLD_eq]
  · cases hnt : nowTransparent e with
    | false =>
      obtain ⟨k, hk1, hk2⟩ := t3 hnt
      refine ⟨k, by simpa using hk1, ?_⟩
      rw [t1, hnt]
      simp only [Bool.false_eq_true, if_false]
      rw [setup_entities_instance_buf]
      exact sliceAt_setup_instance_buf _ k _ hk2
    | true =>
      obtain ⟨k, hk1, hk2⟩ := t2 hnt
      refine ⟨k, by simpa using hk1, ?_⟩
      rw [t1, hnt]
      simp only [if_true]
      rw [setup_entities_instance_buf_transparent]
      exact sliceAt_setup_instance_buf _ k _ hk2

/-- A scene whose single entity references mesh 0 while the mesh table is
empty: `setup_entities` never visits it, so its bookkeeping stays `none`. -/
def cexC1State : GraphicsState := mkState ⟨[], [exEntity], []⟩

/-- C1 counterexample: on a scene with an empty mesh table and one entity
(referencing mesh index 0), a full rebuild leaves the entity without a slot
(`buf_i = none`), and the opaque draw-range table's count sum (0) differs
from the number of entities classified opaque (1).  The claim as stated
over every scene is therefore false. -/
theorem setup_entities_coverage_cex :
    (cexC1State.setup_entities).scene.entities.all (fun e => e.buf_i.isSome) = false ∧
    ¬(mmCounts (cexC1State.setup_entities).mesh_mappings).sum =
      cexC1State.scene.entities.countP (fun e => !nowTransparent e) := by
  constructor
  · decide
  · decide

/-- C1 (amended with the hypothesis that every entity references a mesh that
exists in the mesh table): after a full rebuild every entity has a slot and
a bucket tag assigned, and each bucket's draw-range count sum equals the
number of entities classified into that bucket. -/
theorem setup_entities_coverage (s : GraphicsState)
    (hvalid : ∀ e ∈ s.scene.entities, e.mesh < s.scene.meshes.length) :
    (∀ e' ∈ (s.setup_entities).scene.entities, e'.buf_i.isSome = true) ∧
    (mmCounts (s.setup_entities).mesh_mappings).sum =
      s.scene.entities.countP (fun e => !nowTransparent e) ∧
    (mmCounts (s.setup_entities).mesh_mappings_transparent).sum =
      s.scene.entities.countP (fun e => nowTransparent e) := by
  refine ⟨?_, ?_, ?_⟩
  · intro e' he'
    rw [setup_entities_scene_entities] at he'
    obtain ⟨e, he, rel⟩ :=
      forall₂_mem_right (buildMeshes_slots s.scene.meshes 0 s.scene.entities 0 0 0 0 0) he'
    obtain ⟨h1, h2, h3⟩ := rel
    obtain ⟨t1, t2, t3⟩ := h3 ⟨Nat.zero_le _, by have := hvalid e he; omega⟩
    cases hnt : nowTransparent e with
    | true =>
      obtain ⟨k, hk1, -⟩ := t2 hnt
      simp [hk1]
    | false =>
      obtain ⟨k, hk1, -⟩ := t3 hnt
      simp [hk1]
  · rw [setup_entities_mesh_mappings]
    obtain ⟨-, -, -, -, h5, -⟩ :=
      buildMeshes_mappings s.scene.meshes 0 s.scene.entities 0 0 0 0 0
    rw [h5, (buildMeshes_instances_length s.scene.meshes 0 s.scene.entities 0 0 0 0 0).1]
    apply List.countP_congr
    intro e he
    have hm := hvalid e he
    simp only [Bool.and_eq_true, decide_eq_true_eq]
    constructor
    · rintro ⟨-, hb⟩
      exact hb
    · intro hb
      exact ⟨⟨Nat.zero_le _, by omega⟩, hb⟩
  · rw [setup_entities_mesh_mappings_transparent]
    obtain ⟨-, -, -, -, -, h6⟩ :=
      buildMeshes_mappings s.scene.meshes 0 s.scene.entities 0 0 0 0 0
    rw [h6, (buildMeshes_instances_length s.scene.meshes 0 s.scene.entities 0 0 0 0 0).2]
    apply List.countP_congr
    intro e he
    have hm := hvalid e he
    simp only [Bool.and_eq_true, decide_eq_true_eq]
    constructor
    · rintro ⟨-, hb⟩
      exact hb
    · intro hb
      exact ⟨⟨Nat.zero_le _, by omega⟩, hb⟩

/-- A transparent variant of the example entity. -/
def exEntityT : Entity := { exEntity with id := 1, opacity := mkRat 1 2 }

/-- A well-formed example scene: one mesh, one opaque and one transparent
entity. -/
def exSceneW : Scene := ⟨[exMesh], [exEntity, exEntityT], []⟩

/-- Witness for the amended C1 at a concrete scene. -/
theorem setup_entities_coverage_witness :
    (mmCounts ((mkState exSceneW).setup_entities).mesh_mappings).sum =
      (mkState exSceneW).scene.entities.countP (fun e => !nowTransparent e) :=
  (setup_entities_coverage (mkState exSceneW) (by decide)).2.1

/-! The in-place patch loop: claims C2 and C6. -/

theorem writeBuffer_length (buf : List FByte) (off : Nat) (bytes : List FByte) :
    (writeBuffer buf off bytes).length = buf.length := by
  unfold writeBuffer
  split
  · rename_i h
    simp only [List.length_append, List.length_take, List.length_drop]
    omega
  · rfl

/-- The write a non-rebuilding patch issues for one selected entity: its
serialized instance record, at byte offset `slot * INSTANCE_SIZE`, into the
buffer of its recorded bucket. -/
def mkWriteEvent (e : Entity) : WriteEvent :=
  { target := if e.buf_is_transparent then .transparentBuf else .opaqueBuf
    offset := (e.buf_i.getD 0) * INSTANCE_SIZE
    bytes := (entityToInstance e).to_bytes }

theorem mkWriteEvent_target_ne_gauss (e : Entity) :
    ¬(mkWriteEvent e).target = BufTarget.gaussBuf := by
  unfold mkWriteEvent
  split <;> simp

theorem patchLoop_flag (u : EntityUpdate) (bufO bufT : List FByte) (ents : List Entity) :
    (patchLoop u bufO bufT ents).2.2.2 = true ↔
      ∃ e ∈ ents, selected u e = true ∧
        (e.buf_i = none ∨ nowTransparent e ≠ e.buf_is_transparent) := by
  induction ents generalizing bufO bufT with
  | nil => simp [patchLoop]
  | cons e rest ih =>
    by_cases hs : selected u e = true
    · cases hbi : e.buf_i with
      | none =>
        simp only [patchLoop, hs, if_true, hbi]
        constructor
        · intro _
          exact ⟨e, List.mem_cons_self _ _, hs, Or.inl hbi⟩
        · intro _
          trivial
      | some slot =>
        by_cases hb : nowTransparent e ≠ e.buf_is_transparent
        · simp only [patchLoop, hs, if_true, hbi, if_pos hb]
          constructor
          · intro _
            exact ⟨e, List.mem_cons_self _ _, hs, Or.inr hb⟩
          · intro _
            trivial
        · simp only [patchLoop, hs, if_true, hbi, if_neg hb]
          push_neg at hb
          have step : ∀ bO bT : List FByte,
              ((patchLoop u bO bT rest).2.2.2 = true ↔
                ∃ x ∈ e :: rest, selected u x = true ∧
                  (x.buf_i = none ∨ nowTransparent x ≠ x.buf_is_transparent)) := by
            intro bO bT
            rw [ih bO bT]
            constructor
            · rintro ⟨x, hx, hsx, hfx⟩
              exact ⟨x, List.mem_cons_of_mem _ hx, hsx, hfx⟩
            · rintro ⟨x, hx, hsx, hfx⟩
              rcases List.mem_cons.1 hx with rfl | hx
              · rcases hfx with hfx | hfx
                · rw [hbi] at hfx
                  cases hfx
                · exact absurd hb hfx
              · exact ⟨x, hx, hsx, hfx⟩
          cases hbt : e.buf_is_transparent <;> simp only [hbt, if_true, if_false,
            Bool.false_eq_true] <;> exact step _ _
    · have hsf : selected u e = false := by
        cases hse : selected u e
        · rfl
        · exact absurd hse hs
      simp only [patchLoop, hsf, Bool.false_eq_true, if_false]
      rw [ih bufO bufT]
      constructor
      · rintro ⟨x, hx, hsx, hfx⟩
        exact ⟨x, List.mem_cons_of_mem _ hx, hsx, hfx⟩
      · rintro ⟨x, hx, hsx, hfx⟩
        rcases List.mem_cons.1 hx with rfl | hx
        · rw [hsf] at hsx
          cases hsx
        · exact ⟨x, hx, hsx, hfx⟩

theorem patchLoop_no_rebuild (u : EntityUpdate) (bufO bufT : List FByte) (ents : List Entity)
    (h : (patchLoop u bufO bufT ents).2.2.2 = false) :
    (patchLoop u bufO bufT ents).2.2.1 = (ents.filter (selected u)).map mkWriteEvent ∧
    (∀ e ∈ ents, selected u e = true → e.buf_i.isSome = true) ∧
    (patchLoop u bufO bufT ents).1.length = bufO.length ∧
    (patchLoop u bufO bufT ents).2.1.length = bufT.length := by
  induction ents generalizing bufO bufT with
  | nil => simp [patchLoop]
  | cons e rest ih =>
    by_cases hs : selected u e = true
    · cases hbi : e.buf_i with
      | none =>
        rw [show (patchLoop u bufO bufT (e :: rest)).2.2.2 = true by
          simp [patchLoop, hs, hbi]] at h
        cases h
      | some slot =>
        by_cases hb : nowTransparent e ≠ e.buf_is_transparent
        · rw [show (patchLoop u bufO bufT (e :: rest)).2.2.2 = true by
            simp [patchLoop, hs, hbi, if_pos hb]] at h
          cases h
        · have hb' : nowTransparent e = e.buf_is_transparent := not_ne_iff.mp hb
          cases hbt : e.buf_is_transparent
          · have hred : patchLoop u bufO bufT (e :: rest) =
                (let r := patchLoop u
                  (writeBuffer bufO (slot * INSTANCE_SIZE) (entityToInstance e).to_bytes)
                  bufT rest
                 (r.1, r.2.1, ⟨.opaqueBuf, slot * INSTANCE_SIZE,
                   (entityToInstance e).to_bytes⟩ :: r.2.2.1, r.2.2.2)) := by
              simp [patchLoop, hs, hbi, hb', hbt]
            rw [hred] at h ⊢
            obtain ⟨ih1, ih2, ih3, ih4⟩ := ih _ _ h
            refine ⟨?_, ?_, ?_, ?_⟩
            · simp only [List.filter_cons, hs, if_true, List.map_cons, ih1]
              have : mkWriteEvent e = ⟨.opaqueBuf, slot * INSTANCE_SIZE,
                  (entityToInstance e).to_bytes⟩ := by
                unfold mkWriteEvent
                rw [hbt, hbi]
                simp
              rw [this]
            · intro x hx hsx
              rcases List.mem_cons.1 hx with rfl | hx
              · rw [hbi]
                rfl
              · exact ih2 x hx hsx
            · rw [ih3, writeBuffer_length]
            · exact ih4
          · have hred : patchLoop u bufO bufT (e :: rest) =
                (let r := patchLoop u bufO
                  (writeBuffer bufT (slot * INSTANCE_SIZE) (entityToInstance e).to_bytes)
                  rest
                 (r.1, r.2.1, ⟨.transparentBuf, slot * INSTANCE_SIZE,
                   (entityToInstance e).to_bytes⟩ :: r.2.2.1, r.2.2.2)) := by
              simp [patchLoop, hs, hbi, hb', hbt]
            rw [hred] at h ⊢
            obtain ⟨ih1, ih2, ih3, ih4⟩ := ih _ _ h
            refine ⟨?_, ?_, ?_, ?_⟩
            · simp only [List.filter_cons, hs, if_true, List.map_cons, ih1]
              have : mkWriteEvent e = ⟨.transparentBuf, slot * INSTANCE_SIZE,
                  (entityToInstance e).to_bytes⟩ := by
                unfold mkWriteEvent
                rw [hbt, hbi]
                simp
              rw [this]
            · intro x hx hsx
              rcases List.mem_cons.1 hx with rfl | hx
              · rw [hbi]
                rfl
              · exact ih2 x hx hsx
            · exact ih3
            · rw [ih4, writeBuffer_length]
    · have hsf : selected u e = false := by
        cases hse : selected u e
        · rfl
        · exact absurd hse hs
      rw [show patchLoop u bufO bufT (e :: rest) = patchLoop u bufO bufT rest by
        simp [patchLoop, hs]] at h ⊢
      obtain ⟨ih1, ih2, ih3, ih4⟩ := ih _ _ h
      refine ⟨?_, ?_, ih3, ih4⟩
      · simp only [List.filter_cons, hsf, Bool.false_eq_true, if_false, ih1]
      · intro x hx hsx
        rcases List.mem_cons.1 hx with rfl | hx
        · rw [hsf] at hsx
          cases hsx
        · exact ih2 x hx hsx

theorem setup_entities_congr {s₁ s₂ : GraphicsState} (h : s₁.scene = s₂.scene) :
    s₁.setup_entities = s₂.setup_entities := by
  unfold GraphicsState.setup_entities
  rw [h]

/-- C2: a call to `replace_instance_entries` (not panicking on its slice)
performs one full rebuild covering all entities exactly when some entity of
the iterated slice that the change-set selects has no recorded slot or a
recorded bucket differing from its live one; with no such entity, no
rebuild happens (scene, draw-range tables and gaussian buffer are
untouched). -/
theorem replace_rebuild_fallback (s : GraphicsState) (u : EntityUpdate)
    (l : List Entity) (hl : entsToUpdate s u = some l) :
    ∃ s' tr flag, s.replace_instance_entries u = some (s', tr, flag) ∧
      (flag = true ↔ ∃ e ∈ l, selected u e = true ∧
        (e.buf_i = none ∨ nowTransparent e ≠ e.buf_is_transparent)) ∧
      (flag = true → s' = s.setup_entities) ∧
      (flag = false → s'.scene = s.scene ∧ s'.mesh_mappings = s.mesh_mappings ∧
        s'.mesh_mappings_transparent = s.mesh_mappings_transparent ∧
        s'.instance_buf_gauss = s.instance_buf_gauss) := by
  unfold GraphicsState.replace_instance_entries
  rw [hl]
  cases hflag : (patchLoop u s.instance_buf s.instance_buf_transparent l).2.2.2
  · refine ⟨{ s with
        instance_buf := (patchLoop u s.instance_buf s.instance_buf_transparent l).1,
        instance_buf_transparent :=
          (patchLoop u s.instance_buf s.instance_buf_transparent l).2.1 },
      (patchLoop u s.instance_buf s.instance_buf_transparent l).2.2.1, false, ?_, ?_, ?_, ?_⟩
    · simp [hflag]
    · rw [← patchLoop_flag u s.instance_buf s.instance_buf_transparent l, hflag]
    · intro hcon
      exact absurd hcon (by decide)
    · intro _
      exact ⟨rfl, rfl, rfl, rfl⟩
  · refine ⟨GraphicsState.setup_entities { s with
        instance_buf := (patchLoop u s.instance_buf s.instance_buf_transparent l).1,
        instance_buf_transparent :=
          (patchLoop u s.instance_buf s.instance_buf_transparent l).2.1 },
      (patchLoop u s.instance_buf s.instance_buf_transparent l).2.2.1, true, ?_, ?_, ?_, ?_⟩
    · simp [hflag]
    · rw [← patchLoop_flag u s.instance_buf s.instance_buf_transparent l, hflag]
    · intro _
      exact setup_entities_congr rfl
    · intro hcon
      exact absurd hcon (by decide)

/-- A state whose single entity has never been through a rebuild
(no recorded slot). -/
def exStateStale : GraphicsState := mkState ⟨[exMesh], [exEntity], []⟩

/-- Witness for C2 at a concrete state: a patch by id on an entity without a
recorded slot. -/
theorem replace_rebuild_fallback_witness :
    ∃ s' tr flag,
      exStateStale.replace_instance_entries (.ids [0]) = some (s', tr, flag) ∧
      (flag = true ↔ ∃ e ∈ exStateStale.scene.entities, selected (.ids [0]) e = true ∧
        (e.buf_i = none ∨ nowTransparent e ≠ e.buf_is_transparent)) ∧
      (flag = true → s' = exStateStale.setup_entities) ∧
      (flag = false → s'.scene = exStateStale.scene ∧
        s'.mesh_mappings = exStateStale.mesh_mappings ∧
        s'.mesh_mappings_transparent = exStateStale.mesh_mappings_transparent ∧
        s'.instance_buf_gauss = exStateStale.instance_buf_gauss) :=
  replace_rebuild_fallback exStateStale (.ids [0]) exStateStale.scene.entities rfl

/-- C6: a `replace_instance_entries` call in which no selected entity
triggers the rebuild condition issues exactly one buffer write per selected
entity — in slice order, each targeting the entity's recorded bucket at
byte offset `slot * INSTANCE_SIZE` with its serialized instance record —
and leaves the scene (including all entity bookkeeping), both draw-range
tables, the buffer lengths and the gaussian instance buffer unchanged; no
write ever targets the gaussian buffer. -/
theorem replace_in_place_frame (s : GraphicsState) (u : EntityUpdate)
    (l : List Entity) (hl : entsToUpdate s u = some l)
    (s' : GraphicsState) (tr : List WriteEvent)
    (hres : s.replace_instance_entries u = some (s', tr, false)) :
    tr = (l.filter (selected u)).map mkWriteEvent ∧
    (∀ e ∈ l, selected u e = true → e.buf_i.isSome = true) ∧
    s'.scene = s.scene ∧
    s'.mesh_mappings = s.mesh_mappings ∧
    s'.mesh_mappings_transparent = s.mesh_mappings_transparent ∧
    s'.instance_buf.length = s.instance_buf.length ∧
    s'.instance_buf_transparent.length = s.instance_buf_transparent.length ∧
    s'.instance_buf_gauss = s.instance_buf_gauss ∧
    (∀ ev ∈ tr, ¬ev.target = BufTarget.gaussBuf) := by
  unfold GraphicsState.replace_instance_entries at hres
  rw [hl] at hres
  cases hflag : (patchLoop u s.instance_buf s.instance_buf_transparent l).2.2.2
  · simp only [hflag, Bool.false_eq_true, if_false, Option.some.injEq, Prod.mk.injEq] at hres
    obtain ⟨hs', htr, -⟩ := hres
    obtain ⟨p1, p2, p3, p4⟩ :=
      patchLoop_no_rebuild u s.instance_buf s.instance_buf_transparent l hflag
    subst hs'
    refine ⟨htr ▸ p1, p2, rfl, rfl, rfl, p3, p4, rfl, ?_⟩
    intro ev hev
    rw [← htr] at hev
    rw [p1] at hev
    obtain ⟨e, -, he⟩ := List.mem_map.1 hev
    rw [← he]
    exact mkWriteEvent_target_ne_gauss e
  · simp only [hflag, if_true, Option.some.injEq, Prod.mk.injEq] at hres
    exact absurd hres.2.2 (by decide)

/-- The concrete state after a full rebuild of the example scene. -/
def exStateBuilt : GraphicsState := (mkState exSceneW).setup_entities

/-- The concrete result of patching entity id 0 of the rebuilt example state
in place. -/
def exPatch : GraphicsState × List WriteEvent × Bool :=
  (exStateBuilt.replace_instance_entries (.ids [0])).getD (exStateBuilt, [], true)

/-- Witness for C6 at a concrete state: the patch issues exactly the one
write of the selected entity and leaves the scene untouched. -/
theorem replace_in_place_frame_witness :
    exPatch.1.scene = exStateBuilt.scene ∧
    exPatch.2.1 = (exStateBuilt.scene.entities.filter (selected (.ids [0]))).map mkWriteEvent := by
  have h := replace_in_place_frame exStateBuilt (.ids [0]) exStateBuilt.scene.entities rfl
    exPatch.1 exPatch.2.1 (by rfl)
  exact ⟨h.2.2.1, h.1⟩

/-! Claim C3: the bytes an in-place patch writes equal the bytes the full
rebuild already placed at that slot. -/

theorem entsToUpdate_subset (s : GraphicsState) (u : EntityUpdate) (l : List Entity)
    (hl : entsToUpdate s u = some l) : ∀ x ∈ l, x ∈ s.scene.entities := by
  unfold entsToUpdate at hl
  cases u with
  | indexes r =>
    obtain ⟨a, b⟩ := r
    dsimp only at hl
    by_cases hab : a ≤ b ∧ b ≤ s.scene.entities.length
    · rw [if_pos hab] at hl
      simp only [Option.some.injEq] at hl
      subst hl
      intro x hx
      exact ((List.take_sublist _ _).trans (List.drop_sublist _ _)).subset hx
    · rw [if_neg hab] at hl
      cases hl
  | noneU =>
    simp only [Option.some.injEq] at hl
    subst hl
    exact fun x hx => hx
  | all =>
    simp only [Option.some.injEq] at hl
    subst hl
    exact fun x hx => hx
  | classes v =>
    simp only [Option.some.injEq] at hl
    subst hl
    exact fun x hx => hx
  | ids v =>
    simp only [Option.some.injEq] at hl
    subst hl
    exact fun x hx => hx

/-- C3: patch a freshly rebuilt state (every entity referencing an existing
mesh) with any change-set; when the patch stays in place (no rebuild
triggered), every issued write stores exactly the bytes that the rebuild
already placed at that byte offset of that bucket's buffer — so patching
and a fresh rebuild of the same unmutated registry agree byte-for-byte at
every patched slot. -/
theorem patch_matches_rebuild (s : GraphicsState)
    (hvalid : ∀ e ∈ s.scene.entities, e.mesh < s.scene.meshes.length)
    (u : EntityUpdate) (l : List Entity)
    (hl : entsToUpdate s.setup_entities u = some l)
    (s' : GraphicsState) (tr : List WriteEvent)
    (hres : (s.setup_entities).replace_instance_entries u = some (s', tr, false)) :
    ∀ ev ∈ tr,
      sliceAt (match ev.target with
        | BufTarget.opaqueBuf => (s.setup_entities).instance_buf
        | BufTarget.transparentBuf => (s.setup_entities).instance_buf_transparent
        | BufTarget.gaussBuf => (s.setup_entities).instance_buf_gauss)
        ev.offset INSTANCE_SIZE = ev.bytes := by
  obtain ⟨p1, -⟩ := replace_in_place_frame (s.setup_entities) u l hl s' tr hres
  intro ev hev
  rw [p1] at hev
  obtain ⟨e', hel, hevE⟩ := List.mem_map.1 hev
  have he' : e' ∈ (s.setup_entities).scene.entities :=
    entsToUpdate_subset (s.setup_entities) u l hl e' (List.mem_filter.1 hel).1
  rw [setup_entities_scene_entities] at he'
  obtain ⟨e0, he0, rel⟩ :=
    forall₂_mem_right (buildMeshes_slots s.scene.meshes 0 s.scene.entities 0 0 0 0 0) he'
  obtain ⟨r1, r2, r3⟩ := rel
  obtain ⟨t1, t2, t3⟩ := r3 ⟨Nat.zero_le _, by have := hvalid e0 he0; omega⟩
  cases hnt : nowTransparent e0 with
  | true =>
    obtain ⟨k, hk1, hk2⟩ := t2 hnt
    simp only [← hevE, mkWriteEvent, t1, hnt, if_true, hk1, Option.getD_some, Nat.zero_add]
    rw [setup_entities_instance_buf_transparent, entityToInstance_of_eraseBk_eq r1]
    exact sliceAt_setup_instance_buf _ k _ hk2
  | false =>
    obtain ⟨k, hk1, hk2⟩ := t3 hnt
    simp only [← hevE, mkWriteEvent, t1, hnt, Bool.false_eq_true, if_false, hk1,
      Option.getD_some, Nat.zero_add]
    rw [setup_entities_instance_buf, entityToInstance_of_eraseBk_eq r1]
    exact sliceAt_setup_instance_buf _ k _ hk2

/-- The one write the example patch issues. -/
def exEvent : WriteEvent := exPatch.2.1.headD ⟨BufTarget.gaussBuf, 0, []⟩

/-- Witness for C3 at a concrete state: the example patch's single write
stores exactly the bytes the rebuild placed at that offset. -/
theorem patch_matches_rebuild_witness :
    sliceAt (match exEvent.target with
      | BufTarget.opaqueBuf => ((mkState exSceneW).setup_entities).instance_buf
      | BufTarget.transparentBuf => ((mkState exSceneW).setup_entities).instance_buf_transparent
      | BufTarget.gaussBuf => ((mkState exSceneW).setup_entities).instance_buf_gauss)
      exEvent.offset INSTANCE_SIZE = exEvent.bytes :=
  patch_matches_rebuild (mkState exSceneW) (by decide) (.ids [0])
    ((mkState exSceneW).setup_entities).scene.entities rfl exPatch.1 exPatch.2.1 (by rfl)
    exEvent (by
      rw [show exPatch.2.1 = [exEvent] from rfl]
      exact List.mem_cons_self _ _)

/-! Claim C7: rebuilding twice produces identical results.  The outputs of
`setup_entities` depend only on the bookkeeping-erased entities, and a
rebuild does not change the erased entities, so a second rebuild reproduces
the first exactly. -/

theorem map_eraseBk_forall₂ {l₁ l₂ : List Entity} (h : l₁.map eraseBk = l₂.map eraseBk) :
    List.Forall₂ (fun a b => eraseBk a = eraseBk b) l₁ l₂ := by
  induction l₁ generalizing l₂ with
  | nil =>
    cases l₂ with
    | nil => exact .nil
    | cons => simp at h
  | cons a t ih =>
    cases l₂ with
    | nil => simp at h
    | cons a₂ t₂ =>
      simp only [List.map_cons, List.cons.injEq] at h
      exact .cons h.1 (ih h.2)

theorem filter_length_congr (p : Entity → Bool) (hp : ∀ e, p (eraseBk e) = p e)
    {l₁ l₂ : List Entity} (h : l₁.map eraseBk = l₂.map eraseBk) :
    (l₁.filter p).length = (l₂.filter p).length := by
  rw [← List.countP_eq_length_filter, ← List.countP_eq_length_filter]
  exact countP_eq_of_map_eraseBk_eq hp h

theorem filter_map_entityToInstance_congr (p : Entity → Bool) (hp : ∀ e, p (eraseBk e) = p e)
    {l₁ l₂ : List Entity} (h : l₁.map eraseBk = l₂.map eraseBk) :
    (l₁.filter p).map entityToInstance = (l₂.filter p).map entityToInstance := by
  induction l₁ generalizing l₂ with
  | nil =>
    cases l₂ with
    | nil => rfl
    | cons => simp at h
  | cons a t ih =>
    cases l₂ with
    | nil => simp at h
    | cons a₂ t₂ =>
      simp only [List.map_cons, List.cons.injEq] at h
      obtain ⟨h1, h2⟩ := h
      have hpa : p a = p a₂ := by rw [← hp a, h1, hp a₂]
      have hia : entityToInstance a = entityToInstance a₂ := entityToInstance_of_eraseBk_eq h1
      cases hpv : p a
      · rw [List.filter_cons_of_neg (by rw [hpv]; exact Bool.false_ne_true),
          List.filter_cons_of_neg (by rw [← hpa, hpv]; exact Bool.false_ne_true)]
        exact ih h2
      · rw [List.filter_cons_of_pos (by rw [hpv]), List.filter_cons_of_pos (by rw [← hpa, hpv])]
        simp only [List.map_cons, hia, ih h2]

theorem annotateMesh_congr (i iO iT : Nat) {l₁ l₂ : List Entity}
    (h : l₁.map eraseBk = l₂.map eraseBk) :
    List.Forall₂ (fun y₁ y₂ => eraseBk y₁ = eraseBk y₂ ∧ (y₁.mesh = i → y₁ = y₂))
      (annotateMesh i iO iT l₁) (annotateMesh i iO iT l₂) := by
  induction l₁ generalizing l₂ iO iT with
  | nil =>
    cases l₂ with
    | nil => exact .nil
    | cons => simp at h
  | cons a t ih =>
    cases l₂ with
    | nil => simp at h
    | cons a₂ t₂ =>
      simp only [List.map_cons, List.cons.injEq] at h
      obtain ⟨h1, h2⟩ := h
      have hmesh : a.mesh = a₂.mesh := mesh_of_eraseBk_eq h1
      have hop : a.opacity = a₂.opacity := opacity_of_eraseBk_eq h1
      unfold annotateMesh
      by_cases hm : a.mesh = i
      · have hm₂ : a₂.mesh = i := by rw [← hmesh]; exact hm
        rw [if_pos hm, if_pos hm₂]
        by_cases ho : a.opacity < OPACITY_THRESHOLD
        · have ho₂ : a₂.opacity < OPACITY_THRESHOLD := by rw [← hop]; exact ho
          rw [if_pos ho, if_pos ho₂]
          refine .cons ⟨h1, fun _ => ?_⟩ (ih iO (iT + 1) h2)
          exact congrArg (fun x => { x with buf_i := some iT, buf_is_transparent := true }) h1
        · have ho₂ : ¬a₂.opacity < OPACITY_THRESHOLD := by rw [← hop]; exact ho
          rw [if_neg ho, if_neg ho₂]
          refine .cons ⟨h1, fun _ => ?_⟩ (ih (iO + 1) iT h2)
          exact congrArg (fun x => { x with buf_i := some iO, buf_is_transparent := false }) h1
      · have hm₂ : ¬a₂.mesh = i := by rw [← hmesh]; exact hm
        rw [if_neg hm, if_neg hm₂]
        exact .cons ⟨h1, fun hma => absurd hma hm⟩ (ih iO iT h2)

theorem buildMeshes_aux_congr (ms : List Mesh) (i : Nat) {l₁ l₂ : List Entity}
    (h : l₁.map eraseBk = l₂.map eraseBk) (iO iT : Nat) (vS : Int) (sO sT : Nat) :
    (buildMeshes ms i l₁ iO iT vS sO sT).instances =
      (buildMeshes ms i l₂ iO iT vS sO sT).instances ∧
    (buildMeshes ms i l₁ iO iT vS sO sT).instances_transparent =
      (buildMeshes ms i l₂ iO iT vS sO sT).instances_transparent ∧
    (buildMeshes ms i l₁ iO iT vS sO sT).mesh_mappings =
      (buildMeshes ms i l₂ iO iT vS sO sT).mesh_mappings ∧
    (buildMeshes ms i l₁ iO iT vS sO sT).mesh_mappings_transparent =
      (buildMeshes ms i l₂ iO iT vS sO sT).mesh_mappings_transparent := by
  induction ms generalizing i l₁ l₂ iO iT vS sO sT with
  | nil => simp [buildMeshes]
  | cons m rest ih =>
    rw [buildMeshes_cons m rest i l₁ iO iT vS sO sT, buildMeshes_cons m rest i l₂ iO iT vS sO sT]
    have hFO : (l₂.filter (meshOpaqueF i)).length = (l₁.filter (meshOpaqueF i)).length :=
      (filter_length_congr (meshOpaqueF i) (fun e => rfl) h).symm
    have hFT : (l₂.filter (meshTransparentF i)).length = (l₁.filter (meshTransparentF i)).length :=
      (filter_length_congr (meshTransparentF i) (fun e => rfl) h).symm
    have hFOm : (l₁.filter (meshOpaqueF i)).map entityToInstance =
        (l₂.filter (meshOpaqueF i)).map entityToInstance :=
      filter_map_entityToInstance_congr (meshOpaqueF i) (fun e => rfl) h
    have hFTm : (l₁.filter (meshTransparentF i)).map entityToInstance =
        (l₂.filter (meshTransparentF i)).map entityToInstance :=
      filter_map_entityToInstance_congr (meshTransparentF i) (fun e => rfl) h
    have hA : (annotateMesh i iO iT l₁).map eraseBk = (annotateMesh i iO iT l₂).map eraseBk := by
      rw [annotateMesh_map_eraseBk, annotateMesh_map_eraseBk, h]
    rw [hFO, hFT]
    obtain ⟨c1, c2, c3, c4⟩ := ih (i + 1) hA
      (iO + (l₁.filter (meshOpaqueF i)).length)
      (iT + (l₁.filter (meshTransparentF i)).length)
      (vS + m.vertices.length)
      (sO + (l₁.filter (meshOpaqueF i)).length)
      (sT + (l₁.filter (meshTransparentF i)).length)
    exact ⟨by rw [hFOm, c1], by rw [hFTm, c2], by rw [c3], by rw [c4]⟩

theorem buildMeshes_entities_congr (ms : List Mesh) (i : Nat) {l₁ l₂ : List Entity}
    (h : l₁.map eraseBk = l₂.map eraseBk) (iO iT : Nat) (vS : Int) (sO sT : Nat) :
    List.Forall₂ (fun y₁ y₂ => eraseBk y₁ = eraseBk y₂ ∧
        (i ≤ y₁.mesh → y₁.mesh < i + ms.length → y₁ = y₂))
      (buildMeshes ms i l₁ iO iT vS sO sT).entities
      (buildMeshes ms i l₂ iO iT vS sO sT).entities := by
  induction ms generalizing i l₁ l₂ iO iT vS sO sT with
  | nil =>
    simp only [buildMeshes, List.length_nil]
    exact (map_eraseBk_forall₂ h).imp (fun {a b} hab => ⟨hab, fun ha hb => by omega⟩)
  | cons m rest ih =>
    rw [buildMeshes_cons m rest i l₁ iO iT vS sO sT, buildMeshes_cons m rest i l₂ iO iT vS sO sT]
    simp only [List.length_cons]
    have hFO : (l₂.filter (meshOpaqueF i)).length = (l₁.filter (meshOpaqueF i)).length :=
      (filter_length_congr (meshOpaqueF i) (fun e => rfl) h).symm
    have hFT : (l₂.filter (meshTransparentF i)).length = (l₁.filter (meshTransparentF i)).length :=
      (filter_length_congr (meshTransparentF i) (fun e => rfl) h).symm
    rw [hFO, hFT]
    have hA : (annotateMesh i iO iT l₁).map eraseBk = (annotateMesh i iO iT l₂).map eraseBk := by
      rw [annotateMesh_map_eraseBk, annotateMesh_map_eraseBk, h]
    have hAnn := annotateMesh_congr i iO iT h
    have hIH := ih (i + 1) hA
      (iO + (l₁.filter (meshOpaqueF i)).length)
      (iT + (l₁.filter (meshTransparentF i)).length)
      (vS + m.vertices.length)
      (sO + (l₁.filter (meshOpaqueF i)).length)
      (sT + (l₁.filter (meshTransparentF i)).length)
    have hU₁ := buildMeshes_slots rest (i + 1) (annotateMesh i iO iT l₁)
      (iO + (l₁.filter (meshOpaqueF i)).length)
      (iT + (l₁.filter (meshTransparentF i)).length)
      (vS + m.vertices.length)
      (sO + (l₁.filter (meshOpaqueF i)).length)
      (sT + (l₁.filter (meshTransparentF i)).length)
    have hU₂ := buildMeshes_slots rest (i + 1) (annotateMesh i iO iT l₂)
      (iO + (l₁.filter (meshOpaqueF i)).length)
      (iT + (l₁.filter (meshTransparentF i)).length)
      (vS + m.vertices.length)
      (sO + (l₁.filter (meshOpaqueF i)).length)
      (sT + (l₁.filter (meshTransparentF i)).length)
    rw [List.forall₂_iff_get] at hAnn hIH hU₁ hU₂ ⊢
    refine ⟨hIH.1, ?_⟩
    intro j hj₁ hj₂
    have hjA₁ : j < (annotateMesh i iO iT l₁).length := by
      have := hU₁.1
      omega
    have hjA₂ : j < (annotateMesh i iO iT l₂).length := by
      have := hU₂.1
      omega
    obtain ⟨e1, e2⟩ := hIH.2 j hj₁ hj₂
    refine ⟨e1, fun hge hlt => ?_⟩
    obtain ⟨q1, q2, -⟩ := hU₁.2 j hjA₁ hj₁
    obtain ⟨r1, r2, -⟩ := hU₂.2 j hjA₂ hj₂
    obtain ⟨s1, s2⟩ := hAnn.2 j hjA₁ hjA₂
    by_cases hmi : ((annotateMesh i iO iT l₁).get ⟨j, hjA₁⟩).mesh = i
    · have hmi₂ : ((annotateMesh i iO iT l₂).get ⟨j, hjA₂⟩).mesh = i := by
        rw [← mesh_of_eraseBk_eq s1]
        exact hmi
      have hy₁ := q2 (by omega)
      have hy₂ := r2 (by omega)
      rw [hy₁, hy₂, s2 hmi]
    · have hmeq := mesh_of_eraseBk_eq q1
      exact e2 (by omega) (by omega)

theorem graphicsState_ext {a b : GraphicsState} (h1 : a.scene = b.scene)
    (h2 : a.instance_buf = b.instance_buf)
    (h3 : a.instance_buf_transparent = b.instance_buf_transparent)
    (h4 : a.instance_buf_gauss = b.instance_buf_gauss)
    (h5 : a.mesh_mappings = b.mesh_mappings)
    (h6 : a.mesh_mappings_transparent = b.mesh_mappings_transparent) : a = b := by
  cases a
  cases b
  simp_all

theorem scene_ext {a b : Scene} (h1 : a.meshes = b.meshes) (h2 : a.entities = b.entities)
    (h3 : a.gaussians = b.gaussians) : a = b := by
  cases a
  cases b
  simp_all

/-- C7: running a full rebuild twice in succession with no entity mutation
in between produces an identical state: identical serialized contents for
the opaque, transparent and gaussian instance buffers, identical draw-range
tables, and identical entity bookkeeping. -/
theorem setup_entities_idempotent (s : GraphicsState) :
    (s.setup_entities).setup_entities = s.setup_entities := by
  have herase := buildMeshes_map_eraseBk s.scene.meshes 0 s.scene.entities 0 0 0 0 0
  have hent : (buildMeshes s.scene.meshes 0
      (buildMeshes s.scene.meshes 0 s.scene.entities 0 0 0 0 0).entities 0 0 0 0 0).entities =
      (buildMeshes s.scene.meshes 0 s.scene.entities 0 0 0 0 0).entities := by
    have hcongr := buildMeshes_entities_congr s.scene.meshes 0 herase 0 0 0 0 0
    have hslots := buildMeshes_slots s.scene.meshes 0
      (buildMeshes s.scene.meshes 0 s.scene.entities 0 0 0 0 0).entities 0 0 0 0 0
    rw [List.forall₂_iff_get] at hcongr hslots
    apply List.ext_get hcongr.1
    intro j hj₁ hj₂
    obtain ⟨c1, c2⟩ := hcongr.2 j hj₁ hj₂
    by_cases hm : ((buildMeshes s.scene.meshes 0
        (buildMeshes s.scene.meshes 0 s.scene.entities 0 0 0 0 0).entities
        0 0 0 0 0).entities.get ⟨j, hj₁⟩).mesh < s.scene.meshes.length
    · exact c2 (Nat.zero_le _) (by omega)
    · obtain ⟨u1, u2, -⟩ := hslots.2 j hj₂ hj₁
      have hmeq := mesh_of_eraseBk_eq u1
      exact u2 (by omega)
  apply graphicsState_ext
  · apply scene_ext
    · rfl
    · rw [setup_entities_scene_entities (s.setup_entities), setup_entities_scene_entities s,
        setup_entities_scene_meshes s]
      exact hent
    · rfl
  · rw [setup_entities_instance_buf (s.setup_entities), setup_entities_instance_buf s,
      setup_entities_scene_meshes s, setup_entities_scene_entities s,
      (buildMeshes_aux_congr s.scene.meshes 0 herase 0 0 0 0 0).1]
  · rw [setup_entities_instance_buf_transparent (s.setup_entities),
      setup_entities_instance_buf_transparent s,
      setup_entities_scene_meshes s, setup_entities_scene_entities s,
      (buildMeshes_aux_congr s.scene.meshes 0 herase 0 0 0 0 0).2.1]
  · rfl
  · rw [setup_entities_mesh_mappings (s.setup_entities), setup_entities_mesh_mappings s,
      setup_entities_scene_meshes s, setup_entities_scene_entities s,
      (buildMeshes_aux_congr s.scene.meshes 0 herase 0 0 0 0 0).2.2.1]
  · rw [setup_entities_mesh_mappings_transparent (s.setup_entities),
      setup_entities_mesh_mappings_transparent s,
      setup_entities_scene_meshes s, setup_entities_scene_entities s,
      (buildMeshes_aux_congr s.scene.meshes 0 herase 0 0 0 0 0).2.2.2]

/-! Claim C8: the draw-call sequence of one frame. -/

theorem meshPassCmds_spec (pass : PassKind) (meshes : List Mesh)
    (maps : List (Int × Nat × Nat)) (startInd i0 : Nat) (h : maps.length = meshes.length) :
    ∃ t, meshPassCmds pass meshes maps startInd i0 = some t ∧
      (∀ c ∈ t, c.passOf = some pass) ∧
      (∀ c ∈ t, c.instCountOf ≠ 0) ∧
      (∀ midx : Nat, (∃ c ∈ t, c.meshOf = some midx) ↔
        (∃ j, ∃ v : Int, ∃ st cc : Nat, midx = i0 + j ∧ j < meshes.length ∧
          maps[j]? = some (v, st, cc) ∧ cc ≠ 0)) := by
  induction meshes generalizing maps startInd i0 with
  | nil =>
    refine ⟨[], rfl, by simp, by simp, ?_⟩
    intro midx
    simp only [List.not_mem_nil, false_and, exists_false, false_iff, List.length_nil]
    rintro ⟨j, v, st, cc, -, hj, -⟩
    omega
  | cons m rest ih =>
    cases maps with
    | nil => simp at h
    | cons mp mrest =>
      obtain ⟨vs, ist, ic⟩ := mp
      simp only [List.length_cons, Nat.succ.injEq] at h
      by_cases hic : ic = 0
      · subst hic
        obtain ⟨t, ht, hp, hc, hm⟩ := ih mrest (startInd + m.indices.length) (i0 + 1) h
        refine ⟨t, ?_, hp, hc, ?_⟩
        · simp only [meshPassCmds, if_pos rfl]
          exact ht
        · intro midx
          rw [hm midx]
          constructor
          · rintro ⟨j, v, st, cc, hmx, hj, hmap, hcc⟩
            refine ⟨j + 1, v, st, cc, by omega, by simp; omega, by simpa using hmap, hcc⟩
          · rintro ⟨j, v, st, cc, hmx, hj, hmap, hcc⟩
            cases j with
            | zero =>
              simp only [List.getElem?_cons_zero, Option.some.injEq, Prod.mk.injEq] at hmap
              exact absurd hmap.2.2.symm hcc
            | succ j =>
              simp only [List.getElem?_cons_succ] at hmap
              exact ⟨j, v, st, cc, by omega, by simp at hj; omega, hmap, hcc⟩
      · obtain ⟨t, ht, hp, hc, hm⟩ := ih mrest (startInd + m.indices.length) (i0 + 1) h
        refine ⟨DrawCmd.drawIndexed pass i0 startInd m.indices.length vs ist ic :: t, ?_, ?_, ?_, ?_⟩
        · simp only [meshPassCmds, if_neg hic, ht]
        · intro c hc'
          rcases List.mem_cons.1 hc' with rfl | hc'
          · rfl
          · exact hp c hc'
        · intro c hc'
          rcases List.mem_cons.1 hc' with rfl | hc'
          · exact hic
          · exact hc c hc'
        · intro midx
          constructor
          · rintro ⟨c, hcm, hcmesh⟩
            rcases List.mem_cons.1 hcm with rfl | hcm
            · simp only [DrawCmd.meshOf, Option.some.injEq] at hcmesh
              exact ⟨0, vs, ist, ic, by omega, by simp, by simp, hic⟩
            · obtain ⟨j, v, st, cc, hmx, hj, hmap, hcc⟩ := (hm midx).1 ⟨c, hcm, hcmesh⟩
              exact ⟨j + 1, v, st, cc, by omega, by simp; omega, by simpa using hmap, hcc⟩
          · rintro ⟨j, v, st, cc, hmx, hj, hmap, hcc⟩
            cases j with
            | zero =>
              refine ⟨DrawCmd.drawIndexed pass i0 startInd m.indices.length vs ist ic,
                List.mem_cons_self _ _, ?_⟩
              simp only [DrawCmd.meshOf, Option.some.injEq]
              omega
            | succ j =>
              simp only [List.getElem?_cons_succ] at hmap
              obtain ⟨c, hcm, hcmesh⟩ := (hm midx).2
                ⟨j, v, st, cc, by omega, by simp at hj; omega, hmap, hcc⟩
              exact ⟨c, List.mem_cons_of_mem _ hcm, hcmesh⟩

theorem memIff_shift (t : List DrawCmd) (meshes : List Mesh) (maps : List (Int × Nat × Nat))
    (hm : ∀ midx : Nat, (∃ c ∈ t, c.meshOf = some midx) ↔
      (∃ j, ∃ v : Int, ∃ st cc : Nat, midx = 0 + j ∧ j < meshes.length ∧
        maps[j]? = some (v, st, cc) ∧ cc ≠ 0)) (midx : Nat) :
    (∃ c ∈ t, c.meshOf = some midx) ↔
      (∃ v : Int, ∃ st cc : Nat, midx < meshes.length ∧
        maps[midx]? = some (v, st, cc) ∧ cc ≠ 0) := by
  rw [hm midx]
  constructor
  · rintro ⟨j, v, st, cc, hmx, hj, hmap, hcc⟩
    have hjm : j = midx := by omega
    subst hjm
    exact ⟨v, st, cc, hj, hmap, hcc⟩
  · rintro ⟨v, st, cc, hlt, hmap, hcc⟩
    exact ⟨midx, v, st, cc, by omega, hlt, hmap, hcc⟩

/-- C8: with draw-range tables of one entry per mesh (as every rebuild
establishes), `setup_render_pass` issues its draw calls in the fixed order
opaque pass, transparent-backface pass, transparent-frontface pass,
gaussians last; a bucket whose instance buffer is empty is skipped
entirely; within a pass a draw call is issued for a mesh exactly when that
mesh's instance count in that bucket's table is nonzero; and no draw call
with instance count 0 is ever emitted. -/
theorem setup_render_pass_spec (s : GraphicsState)
    (h1 : s.mesh_mappings.length = s.scene.meshes.length)
    (h2 : s.mesh_mappings_transparent.length = s.scene.meshes.length) :
    ∃ t1 t2 t3 t4,
      s.setup_render_pass = some (t1 ++ t2 ++ t3 ++ t4) ∧
      (∀ c ∈ t1, c.passOf = some PassKind.opaquePass) ∧
      (∀ c ∈ t2, c.passOf = some PassKind.transparentBackPass) ∧
      (∀ c ∈ t3, c.passOf = some PassKind.transparentFrontPass) ∧
      t4 = (if s.scene.gaussians.isEmpty then []
        else [DrawCmd.drawGauss s.scene.gaussians.length]) ∧
      (∀ c ∈ t1 ++ t2 ++ t3 ++ t4, c.instCountOf ≠ 0) ∧
      (s.instance_buf.length = 0 → t1 = []) ∧
      (s.instance_buf_transparent.length = 0 → t2 = [] ∧ t3 = []) ∧
      (s.instance_buf.length ≠ 0 → ∀ midx : Nat,
        ((∃ c ∈ t1, c.meshOf = some midx) ↔
          (∃ v : Int, ∃ st cc : Nat, midx < s.scene.meshes.length ∧
            s.mesh_mappings[midx]? = some (v, st, cc) ∧ cc ≠ 0))) ∧
      (s.instance_buf_transparent.length ≠ 0 → ∀ midx : Nat,
        (((∃ c ∈ t2, c.meshOf = some midx) ↔
          (∃ v : Int, ∃ st cc : Nat, midx < s.scene.meshes.length ∧
            s.mesh_mappings_transparent[midx]? = some (v, st, cc) ∧ cc ≠ 0)) ∧
         ((∃ c ∈ t3, c.meshOf = some midx) ↔
          (∃ v : Int, ∃ st cc : Nat, midx < s.scene.meshes.length ∧
            s.mesh_mappings_transparent[midx]? = some (v, st, cc) ∧ cc ≠ 0)))) := by
  have hc4 : ∀ c ∈ (if s.scene.gaussians.isEmpty then ([] : List DrawCmd)
      else [DrawCmd.drawGauss s.scene.gaussians.length]), c.instCountOf ≠ 0 := by
    intro c hc
    by_cases hg : s.scene.gaussians.isEmpty
    · rw [if_pos hg] at hc
      cases hc
    · rw [if_neg hg] at hc
      rcases List.mem_cons.1 hc with rfl | hc
      · intro h0
        apply hg
        rw [List.isEmpty_iff]
        exact List.length_eq_zero.1 h0
      · cases hc
  obtain ⟨tO, htO, hpO, hcO, hmO⟩ :=
    meshPassCmds_spec .opaquePass s.scene.meshes s.mesh_mappings 0 0 h1
  obtain ⟨tB, htB, hpB, hcB, hmB⟩ :=
    meshPassCmds_spec .transparentBackPass s.scene.meshes s.mesh_mappings_transparent 0 0 h2
  obtain ⟨tF, htF, hpF, hcF, hmF⟩ :=
    meshPassCmds_spec .transparentFrontPass s.scene.meshes s.mesh_mappings_transparent 0 0 h2
  unfold GraphicsState.setup_render_pass
  by_cases hb1 : s.instance_buf.length = 0
  · by_cases hb2 : s.instance_buf_transparent.length = 0
    · refine ⟨[], [], [], _, ?_, ?_, ?_, ?_, rfl, ?_, fun _ => rfl, fun _ => ⟨rfl, rfl⟩,
        fun hne => absurd hb1 hne, fun hne => absurd hb2 hne⟩
      · simp [hb1, hb2]
      · intro c hc
        cases hc
      · intro c hc
        cases hc
      · intro c hc
        cases hc
      · intro c hc
        simp only [List.nil_append] at hc
        exact hc4 c hc
    · refine ⟨[], tB, tF, _, ?_, ?_, hpB, hpF, rfl, ?_, fun _ => rfl,
        fun h0 => absurd h0 hb2, fun hne => absurd hb1 hne, ?_⟩
      · simp [hb1, hb2, htB, htF]
      · intro c hc
        cases hc
      · intro c hc
        rcases List.mem_append.1 hc with hc | hc
        · rcases List.mem_append.1 hc with hc | hc
          · rw [List.nil_append] at hc
            exact hcB c hc
          · exact hcF c hc
        · exact hc4 c hc
      · intro _ midx
        exact ⟨memIff_shift tB s.scene.meshes s.mesh_mappings_transparent hmB midx,
          memIff_shift tF s.scene.meshes s.mesh_mappings_transparent hmF midx⟩
  · by_cases hb2 : s.instance_buf_transparent.length = 0
    · refine ⟨tO, [], [], _, ?_, hpO, ?_, ?_, rfl, ?_, fun h0 => absurd h0 hb1,
        fun _ => ⟨rfl, rfl⟩, ?_, fun hne => absurd hb2 hne⟩
      · simp [hb1, hb2, htO]
      · intro c hc
        cases hc
      · intro c hc
        cases hc
      · intro c hc
        rcases List.mem_append.1 hc with hc | hc
        · rw [List.append_nil, List.append_nil] at hc
          exact hcO c hc
        · exact hc4 c hc
      · intro _ midx
        exact memIff_shift tO s.scene.meshes s.mesh_mappings hmO midx
    · refine ⟨tO, tB, tF, _, ?_, hpO, hpB, hpF, rfl, ?_, fun h0 => absurd h0 hb1,
        fun h0 => absurd h0 hb2, ?_, ?_⟩
      · simp [hb1, hb2, htO, htB, htF]
      · intro c hc
        rcases List.mem_append.1 hc with hc | hc
        · rcases List.mem_append.1 hc with hc | hc
          · rcases List.mem_append.1 hc with hc | hc
            · exact hcO c hc
            · exact hcB c hc
          · exact hcF c hc
        · exact hc4 c hc
      · intro _ midx
        exact memIff_shift tO s.scene.meshes s.mesh_mappings hmO midx
      · intro _ midx
        exact ⟨memIff_shift tB s.scene.meshes s.mesh_mappings_transparent hmB midx,
          memIff_shift tF s.scene.meshes s.mesh_mappings_transparent hmF midx⟩

/-- Witness for C8 at the rebuilt example state (its draw-range tables have
one entry per mesh). -/
theorem setup_render_pass_spec_witness :
    ∃ t1 t2 t3 t4,
      exStateBuilt.setup_render_pass = some (t1 ++ t2 ++ t3 ++ t4) ∧
      (∀ c ∈ t1, c.passOf = some PassKind.opaquePass) ∧
      (∀ c ∈ t2, c.passOf = some PassKind.transparentBackPass) ∧
      (∀ c ∈ t3, c.passOf = some PassKind.transparentFrontPass) ∧
      t4 = (if exStateBuilt.scene.gaussians.isEmpty then []
        else [DrawCmd.drawGauss exStateBuilt.scene.gaussians.length]) ∧
      (∀ c ∈ t1 ++ t2 ++ t3 ++ t4, c.instCountOf ≠ 0) ∧
      (exStateBuilt.instance_buf.length = 0 → t1 = []) ∧
      (exStateBuilt.instance_buf_transparent.length = 0 → t2 = [] ∧ t3 = []) ∧
      (exStateBuilt.instance_buf.length ≠ 0 → ∀ midx : Nat,
        ((∃ c ∈ t1, c.meshOf = some midx) ↔
          (∃ v : Int, ∃ st cc : Nat, midx < exStateBuilt.scene.meshes.length ∧
            exStateBuilt.mesh_mappings[midx]? = some (v, st, cc) ∧ cc ≠ 0))) ∧
      (exStateBuilt.instance_buf_transparent.length ≠ 0 → ∀ midx : Nat,
        (((∃ c ∈ t2, c.meshOf = some midx) ↔
          (∃ v : Int, ∃ st cc : Nat, midx < exStateBuilt.scene.meshes.length ∧
            exStateBuilt.mesh_mappings_transparent[midx]? = some (v, st, cc) ∧ cc ≠ 0)) ∧
         ((∃ c ∈ t3, c.meshOf = some midx) ↔
          (∃ v : Int, ∃ st cc : Nat, midx < exStateBuilt.scene.meshes.length ∧
            exStateBuilt.mesh_mappings_transparent[midx]? = some (v, st, cc) ∧ cc ≠ 0)))) :=
  setup_render_pass_spec exStateBuilt (by decide) (by decide)

end Graphics
